import Mathlib

/-!
# Verification of the streaming diff engine (`diaz_diff_checker/differ.py`,
# `data_diff_checker/csv_reader.py`)

Shallow embedding of the repository's diff engine.  A CSV table is modelled
as its list of normalized header names together with its list of parsed data
rows, each row tagged with the 1-indexed starting line number that the
streaming reader (`StreamingCSVReader.iterate_rows_with_line_numbers`)
reports.  A row is the association list of (normalized column name, value)
produced by the reader; `row.get(k, "")` becomes `rget`.

The MD5 digests of `EfficientDiffer._hash_row` are modelled by their
preimage strings: the code hashes `"|".join(str(row.get(k, "")) for k in
sorted(keys))`, and two MD5 digests are equal exactly when the joined
strings are equal (up to MD5 collisions, which the model idealizes away).
In particular the model keeps the unescaped `"|"` join, so the genuine
join collisions of the code are preserved faithfully.

Python dictionaries are modelled by association lists with
insertion-order-preserving update (`updateAssoc`), which is exactly the
dict semantics the code relies on (first-insertion iteration order,
last-assignment value).
-/

/-- A parsed data row: mapping from normalized column name to value. -/
abbrev Row := List (String × String)

/-- `row.get(k, "")`: the value of column `k`, or `""` when absent. -/
def rget (row : Row) (k : String) : String :=
  (List.lookup k row).getD ""

/-- Python dict assignment `d[k] = v`: replace the value in place when the
key is present, otherwise append the new binding at the end (insertion
order preserved, as for a Python dict). -/
def updateAssoc {α : Type} : List (String × α) → String → α → List (String × α)
  | [], k, v => [(k, v)]
  | (k0, v0) :: rest, k, v =>
      if k0 = k then (k0, v) :: rest else (k0, v0) :: updateAssoc rest k v

/-- One table handle: normalized headers and the streamed data rows with
their 1-indexed starting line numbers. -/
structure Table where
  headers : List String
  rows : List (Nat × Row)

/-- Constructor arguments of `EfficientDiffer`. -/
structure DifferConfig where
  primaryKeys : List String
  maxExamples : Nat
  excludedPatterns : List String

/-- `str.lower()`, modelled character-wise (so that it evaluates by
structural recursion). -/
def lowerString (s : String) : String :=
  ⟨s.data.map Char.toLower⟩

/-- `EfficientDiffer._is_excluded_column`: case-insensitive substring match
of any configured pattern against the column name. -/
def isExcludedColumn (patterns : List String) (columnName : String) : Bool :=
  patterns.any fun p =>
    decide ((lowerString p).data <:+: (lowerString columnName).data)

/-- `EfficientDiffer._make_composite_key`: join the row's values for the
primary key columns with `"||"`. -/
def makeCompositeKey (pks : List String) (row : Row) : String :=
  String.intercalate "||" (pks.map fun k => rget row k)

/-- `EfficientDiffer._get_primary_key_display`: single key column gives its
value (`"<missing>"` when absent); several are joined with `"_"`. -/
def getPrimaryKeyDisplay (pks : List String) (row : Row) : String :=
  match pks with
  | [k] =>
      match List.lookup k row with
      | some v => v
      | none => "<missing>"
  | _ =>
      String.intercalate "_" (pks.map fun k =>
        match List.lookup k row with
        | some v => v
        | none => "<missing>")

/-- Lexicographic comparison of character lists (Python's string order,
by code point), written so that it evaluates by structural recursion. -/
def lexLe : List Char → List Char → Bool
  | [], _ => true
  | _ :: _, [] => false
  | a :: as, b :: bs => if a = b then lexLe as bs else decide (a < b)

/-- Python `sorted` on a list of strings. -/
def sortStrings (l : List String) : List String :=
  l.insertionSort (fun a b => lexLe a.data b.data = true)

/-- `EfficientDiffer._hash_row`, with the MD5 digest modelled by its
preimage: `"|".join(row.get(k, "") for k in sorted(keys))`. -/
def hashRow (row : Row) (keys : List String) : String :=
  String.intercalate "|" ((sortStrings keys).map fun k => rget row k)

/-- One entry of the production index:
`(line_num, full_hash, comparison_hash, display_key)`. -/
structure IndexEntry where
  line : Nat
  fullHash : String
  compHash : String
  displayKey : String
  deriving DecidableEq

/-- One entry of the development index: `(line_num, full_hash, comparison_hash)`. -/
structure DevEntry where
  line : Nat
  fullHash : String
  compHash : String
  deriving DecidableEq

/-- The `(full_hash, comp_hash)` computation shared by both passes:
`comp_hash = _hash_row(row, comparison_keys) if comparison_keys else full_hash`. -/
def prodEntry (cfg : DifferConfig) (commonKeys comparisonKeys : List String)
    (r : Nat × Row) : IndexEntry :=
  let full := hashRow r.2 commonKeys
  { line := r.1
    fullHash := full
    compHash := if comparisonKeys.isEmpty then full else hashRow r.2 comparisonKeys
    displayKey := getPrimaryKeyDisplay cfg.primaryKeys r.2 }

/-- Development-side entry (no display key stored, as in the code). -/
def devEntry (commonKeys comparisonKeys : List String) (r : Nat × Row) : DevEntry :=
  let full := hashRow r.2 commonKeys
  { line := r.1
    fullHash := full
    compHash := if comparisonKeys.isEmpty then full else hashRow r.2 comparisonKeys }

/-- The indexing loop of Pass 1 / Pass 2: stream the rows in order and store
each row's entry under its composite key (`index[composite_key] = entry`,
so later occurrences overwrite earlier ones). -/
def buildIndexGo {α : Type} (pks : List String) (f : Nat × Row → α)
    (acc : List (String × α)) : List (Nat × Row) → List (String × α)
  | [] => acc
  | r :: rest =>
      buildIndexGo pks f (updateAssoc acc (makeCompositeKey pks r.2) (f r)) rest

/-- The last occurrence of composite key `k` in a full sequential scan. -/
def lastOcc (pks : List String) (rows : List (Nat × Row)) (k : String) :
    Option (Nat × Row) :=
  rows.reverse.find? fun r => makeCompositeKey pks r.2 == k

/-- The added-row detection interleaved with the Pass-2 indexing loop: an
occurrence is collected when its key is not in the production index and has
not been seen before (`added_keys` dedup), i.e. exactly at the first
occurrence of each key that is new to production. -/
def addedScan (pks : List String) (prodIndex : List (String × IndexEntry))
    (seen : List String) : List (Nat × Row) → List (Nat × Row)
  | [] => []
  | (ln, row) :: rest =>
      let k := makeCompositeKey pks row
      if List.lookup k prodIndex = none ∧ k ∉ seen then
        (ln, row) :: addedScan pks prodIndex (k :: seen) rest
      else
        addedScan pks prodIndex seen rest

/-- `{k: row.get(k, "") for k in common_keys}`: the projected row retained
during Pass 3. -/
def projRow (commonKeys : List String) (row : Row) : Row :=
  commonKeys.map fun k => (k, rget row k)

/-- The Pass-3 retention loop: re-stream the table and keep (projected,
last-occurrence-wins) only the rows whose composite key is in the changed set. -/
def buildNeeded {α : Type} (pks : List String) (changed : List String)
    (f : Nat × Row → α) (acc : List (String × α)) :
    List (Nat × Row) → List (String × α)
  | [] => acc
  | r :: rest =>
      let k := makeCompositeKey pks r.2
      buildNeeded pks changed f
        (if k ∈ changed then updateAssoc acc k (f r) else acc) rest

/-- Production index of Pass 1 (`prod_index`). -/
def prodIndexOf (cfg : DifferConfig) (commonKeys comparisonKeys : List String)
    (prodRows : List (Nat × Row)) : List (String × IndexEntry) :=
  buildIndexGo cfg.primaryKeys (prodEntry cfg commonKeys comparisonKeys) [] prodRows

/-- Development index of Pass 2 (`dev_index`). -/
def devIndexOf (cfg : DifferConfig) (commonKeys comparisonKeys : List String)
    (devRows : List (Nat × Row)) : List (String × DevEntry) :=
  buildIndexGo cfg.primaryKeys (devEntry commonKeys comparisonKeys) [] devRows

/-- The classification loop over `dev_index.items()`: keys present in both
indexes whose full hashes differ (`all_changed_keys`). -/
def changedEntries (prodIndex : List (String × IndexEntry))
    (devIndex : List (String × DevEntry)) : List (String × DevEntry) :=
  devIndex.filter fun e =>
    match List.lookup e.1 prodIndex with
    | some pe => e.2.fullHash != pe.fullHash
    | none => false

/-- Keys classified as meaningful updates: both hashes differ. -/
def meaningfulEntries (prodIndex : List (String × IndexEntry))
    (devIndex : List (String × DevEntry)) : List (String × DevEntry) :=
  devIndex.filter fun e =>
    match List.lookup e.1 prodIndex with
    | some pe => e.2.fullHash != pe.fullHash && e.2.compHash != pe.compHash
    | none => false

/-- Keys classified as excluded-only updates: full hash differs, comparison
hash matches. -/
def excludedOnlyEntries (prodIndex : List (String × IndexEntry))
    (devIndex : List (String × DevEntry)) : List (String × DevEntry) :=
  devIndex.filter fun e =>
    match List.lookup e.1 prodIndex with
    | some pe => e.2.fullHash != pe.fullHash && e.2.compHash == pe.compHash
    | none => false

/-- The removed-row loop over `prod_index.items()`: keys absent from the
development index. -/
def removedEntries (prodIndex : List (String × IndexEntry))
    (devIndex : List (String × DevEntry)) : List (String × IndexEntry) :=
  prodIndex.filter fun e => (List.lookup e.1 devIndex).isNone

/-- The counter-guarded example collection for a category: the guard
`collected < max_examples` admits exactly the first `max_examples` eligible
items (the counter advances once per collected item), each stored in the
example dict keyed by display key. -/
def collectExamples {α : Type} (maxExamples : Nat)
    (items : List (String × α)) : List (String × α) :=
  (items.take maxExamples).foldl (fun m e => updateAssoc m e.1 e.2) []

/-- The per-key inner loop of Pass 3: common columns whose values differ
and that are not excluded (these set `has_meaningful_change` and are
tallied in `detailed_changes`). -/
def columnDiffs (patterns : List String) (commonKeys : List String)
    (prodRow devRow : Row) : List String :=
  commonKeys.filter fun c =>
    (rget prodRow c != rget devRow c) && !(isExcludedColumn patterns c)

/-- `detailed_changes[key] += 1` on a `defaultdict(int)`. -/
def bumpCount (m : List (String × Nat)) (k : String) : List (String × Nat) :=
  updateAssoc m k ((List.lookup k m).getD 0 + 1)

/-- State threaded through the Pass-3 comparison loop. -/
structure Pass3State where
  detailed : List (String × Nat)
  exampleIds : List (String × (Nat × Nat))
  collected : Nat

/-- One iteration of the Pass-3 loop `for composite_key in all_changed_keys`:
skip when either retained side is missing; tally the differing non-excluded
columns; collect an example (prod line from the index, dev line from the
retained dev row) when the key is meaningful, a non-excluded difference was
found, and the example cap is not yet reached. -/
def pass3Step (cfg : DifferConfig) (commonKeys : List String)
    (prodIndex : List (String × IndexEntry)) (meaningfulKeys : List String)
    (neededProd : List (String × Row)) (neededDev : List (String × (Nat × Row)))
    (st : Pass3State) (k : String) : Pass3State :=
  match List.lookup k neededProd, List.lookup k neededDev with
  | some prodRow, some (devLineNum, devRow) =>
      let diffCols := columnDiffs cfg.excludedPatterns commonKeys prodRow devRow
      let detailed := diffCols.foldl bumpCount st.detailed
      if k ∈ meaningfulKeys ∧ diffCols ≠ [] then
        if st.collected < cfg.maxExamples then
          { detailed := detailed
            exampleIds := updateAssoc st.exampleIds
              (getPrimaryKeyDisplay cfg.primaryKeys devRow)
              (((List.lookup k prodIndex).map IndexEntry.line).getD 0, devLineNum)
            collected := st.collected + 1 }
        else
          { st with detailed := detailed }
      else
        { st with detailed := detailed }
  | _, _ => st

/-- The raw diff statistics returned by `_process_differences`. -/
structure DiffStats where
  rows_added : Nat
  rows_removed : Nat
  rows_updated : Nat
  rows_updated_excluded_only : Nat
  detailed_key_update_counts : List (String × Nat)
  example_ids : List (String × (Nat × Nat))
  example_ids_added : List (String × Nat)
  example_ids_removed : List (String × Nat)

/-- `EfficientDiffer._process_differences`: the three-phase hash comparison.
Phase 1 builds the production index; Phase 2 builds the development index,
counts added keys (once per distinct key, example at first sight), compares
the final stored hashes of the two indexes to classify changed keys, and
counts removed keys; Phase 3 re-streams both files retaining the changed
keys' last-occurrence rows and produces per-column tallies and examples. -/
def processDifferences (cfg : DifferConfig) (prodRows devRows : List (Nat × Row))
    (commonKeys comparisonKeys : List String) : DiffStats :=
  let prodIndex := prodIndexOf cfg commonKeys comparisonKeys prodRows
  let devIndex := devIndexOf cfg commonKeys comparisonKeys devRows
  let addedOccurrences := addedScan cfg.primaryKeys prodIndex [] devRows
  let meaningfulKeys := (meaningfulEntries prodIndex devIndex).map Prod.fst
  let allChangedKeys := (changedEntries prodIndex devIndex).map Prod.fst
  let removed := removedEntries prodIndex devIndex
  let neededProd :=
    buildNeeded cfg.primaryKeys allChangedKeys (fun r => projRow commonKeys r.2)
      [] prodRows
  let neededDev :=
    buildNeeded cfg.primaryKeys allChangedKeys
      (fun r => (r.1, projRow commonKeys r.2)) [] devRows
  let p3 := allChangedKeys.foldl
    (pass3Step cfg commonKeys prodIndex meaningfulKeys neededProd neededDev)
    ⟨[], [], 0⟩
  { rows_added := addedOccurrences.length
    rows_removed := removed.length
    rows_updated := meaningfulKeys.length
    rows_updated_excluded_only := (excludedOnlyEntries prodIndex devIndex).length
    detailed_key_update_counts := p3.detailed
    example_ids := p3.exampleIds
    example_ids_added := collectExamples cfg.maxExamples
      (addedOccurrences.map fun r =>
        (getPrimaryKeyDisplay cfg.primaryKeys r.2, r.1))
    example_ids_removed := collectExamples cfg.maxExamples
      (removed.map fun e => (e.2.displayKey, e.2.line)) }

/-- Which side of the comparison a configuration error refers to. -/
inductive Side
  | prod
  | dev
  deriving DecidableEq

/-- The data carried by the `ValueError` raised by `compute_diff` when
primary key columns are missing: `"Primary keys {missing} not found in
{side} file. Available columns: {sorted(headers)}"`. -/
structure KeyColumnError where
  side : Side
  missingKeys : List String
  availableColumns : List String
  deriving DecidableEq

/-- The full result dictionary of `compute_diff`. -/
structure DiffResult extends DiffStats where
  common_keys : List String
  prod_only_keys : List String
  dev_only_keys : List String
  prod_row_count : Nat
  dev_row_count : Nat

/-- `EfficientDiffer.compute_diff`: read headers, validate the primary key
columns against both header sets (production first) before touching any
data row, compute the column sets, run `_process_differences`, and attach
the metadata. -/
def computeDiff (cfg : DifferConfig) (prodTable devTable : Table) :
    Except KeyColumnError DiffResult :=
  let prodHeaders := prodTable.headers.dedup
  let devHeaders := devTable.headers.dedup
  let missingProd := cfg.primaryKeys.filter fun k => !(prodHeaders.contains k)
  if missingProd ≠ [] then
    .error ⟨Side.prod, missingProd, sortStrings prodHeaders⟩
  else
    let missingDev := cfg.primaryKeys.filter fun k => !(devHeaders.contains k)
    if missingDev ≠ [] then
      .error ⟨Side.dev, missingDev, sortStrings devHeaders⟩
    else
      let commonKeys := prodHeaders.filter (· ∈ devHeaders)
      let prodOnlyKeys := prodHeaders.filter (· ∉ devHeaders)
      let devOnlyKeys := devHeaders.filter (· ∉ prodHeaders)
      let comparisonKeys :=
        commonKeys.filter fun k => !(isExcludedColumn cfg.excludedPatterns k)
      let stats :=
        processDifferences cfg prodTable.rows devTable.rows commonKeys comparisonKeys
      .ok { stats with
            common_keys := sortStrings commonKeys
            prod_only_keys := sortStrings prodOnlyKeys
            dev_only_keys := sortStrings devOnlyKeys
            prod_row_count := prodTable.rows.length
            dev_row_count := devTable.rows.length }

/-- The sample chunks read by `StreamingCSVReader._detect_delimiters`: the
initial 32KB chunk always; then, only inside the `file_size > 100000`
branch, a middle chunk and — under a further nested `file_size > 50000`
test — a chunk near the end of the file. -/
inductive SampleChunk
  | head
  | middle
  | tail
  deriving DecidableEq

/-- The sampling plan of `StreamingCSVReader._detect_delimiters` as a
function of the file size in bytes, mirroring the code's nesting exactly:
the end-sample test `file_size > 50000` sits inside the
`file_size > 100000` branch. -/
def sampleChunks (fileSize : Nat) : List SampleChunk :=
  [SampleChunk.head] ++
    (if fileSize > 100000 then
      [SampleChunk.middle] ++ (if fileSize > 50000 then [SampleChunk.tail] else [])
    else [])

/-! ## Association-list helper lemmas -/

theorem lookup_updateAssoc {α : Type} (m : List (String × α)) (k k2 : String)
    (v : α) :
    List.lookup k2 (updateAssoc m k v) =
      if k2 = k then some v else List.lookup k2 m := by
  induction m with
  | nil =>
      by_cases h : k2 = k
      · have hb : (k2 == k) = true := beq_iff_eq.mpr h
        simp [updateAssoc, List.lookup, hb, h]
      · have hb : (k2 == k) = false := beq_eq_false_iff_ne.mpr h
        simp [updateAssoc, List.lookup, hb, h]
  | cons hd tl ih =>
      obtain ⟨k0, v0⟩ := hd
      by_cases h0 : k0 = k
      · subst h0
        by_cases h : k2 = k0
        · have hb : (k2 == k0) = true := beq_iff_eq.mpr h
          simp [updateAssoc, List.lookup, hb, h]
        · have hb : (k2 == k0) = false := beq_eq_false_iff_ne.mpr h
          simp [updateAssoc, List.lookup, hb, h]
      · by_cases h : k2 = k0
        · have hne : k2 ≠ k := fun hc => h0 (h.symm.trans hc)
          have hb : (k2 == k0) = true := beq_iff_eq.mpr h
          simp [updateAssoc, h0, List.lookup, hb, hne]
        · have hb : (k2 == k0) = false := beq_eq_false_iff_ne.mpr h
          simp [updateAssoc, h0, List.lookup, hb, ih]

theorem keys_updateAssoc {α : Type} (m : List (String × α)) (k : String) (v : α) :
    (updateAssoc m k v).map Prod.fst =
      if k ∈ m.map Prod.fst then m.map Prod.fst else m.map Prod.fst ++ [k] := by
  induction m with
  | nil => simp [updateAssoc]
  | cons hd tl ih =>
      obtain ⟨k0, v0⟩ := hd
      by_cases h0 : k0 = k
      · subst h0; simp [updateAssoc]
      · by_cases hk : k ∈ tl.map Prod.fst <;>
          simp [updateAssoc, h0, Ne.symm h0, ih, hk]

theorem nodup_keys_updateAssoc {α : Type} (m : List (String × α)) (k : String)
    (v : α) (h : (m.map Prod.fst).Nodup) :
    ((updateAssoc m k v).map Prod.fst).Nodup := by
  rw [keys_updateAssoc]
  split
  · exact h
  · next hk =>
      refine List.Nodup.append h (List.nodup_singleton k) ?_
      intro a ha hain
      rcases List.mem_singleton.mp hain with rfl
      exact hk ha

theorem length_updateAssoc_le {α : Type} (m : List (String × α)) (k : String)
    (v : α) : (updateAssoc m k v).length ≤ m.length + 1 := by
  induction m with
  | nil => simp [updateAssoc]
  | cons hd tl ih =>
      obtain ⟨k0, v0⟩ := hd
      by_cases h0 : k0 = k
      · simp [updateAssoc, h0]
      · simp [updateAssoc, h0]
        omega

theorem lookupA_eq_none {α : Type} (m : List (String × α)) (k : String) :
    List.lookup k m = none ↔ k ∉ m.map Prod.fst := by
  induction m with
  | nil => simp [List.lookup]
  | cons hd tl ih =>
      obtain ⟨k0, v0⟩ := hd
      by_cases h : k = k0
      · have hb : (k == k0) = true := beq_iff_eq.mpr h
        simp [List.lookup, hb, h]
      · have hb : (k == k0) = false := beq_eq_false_iff_ne.mpr h
        simp [List.lookup, hb, h, ih]

theorem mem_lookup_of_nodup {α : Type} (m : List (String × α)) (k : String)
    (v : α) (hmem : (k, v) ∈ m) (hnd : (m.map Prod.fst).Nodup) :
    List.lookup k m = some v := by
  induction m with
  | nil => simp at hmem
  | cons hd tl ih =>
      obtain ⟨k0, v0⟩ := hd
      rcases List.mem_cons.mp hmem with heq | htl
      · obtain ⟨rfl, rfl⟩ := Prod.mk.injEq .. ▸ heq
        have hb : (k == k) = true := beq_iff_eq.mpr rfl
        simp [List.lookup, hb]
      · have hk : k ≠ k0 := by
          rintro rfl
          exact (List.nodup_cons.mp hnd).1 (List.mem_map.mpr ⟨(k, v), htl, rfl⟩)
        have hb : (k == k0) = false := beq_eq_false_iff_ne.mpr hk
        simp only [List.lookup, hb]
        exact ih htl (List.nodup_cons.mp hnd).2

/-! ## Index-construction lemmas: last-occurrence-wins -/

theorem lookup_buildIndexGo {α : Type} (pks : List String) (f : Nat × Row → α)
    (rows : List (Nat × Row)) (acc : List (String × α)) (k : String) :
    List.lookup k (buildIndexGo pks f acc rows) =
      match lastOcc pks rows k with
      | some r => some (f r)
      | none => List.lookup k acc := by
  induction rows generalizing acc with
  | nil => simp [buildIndexGo, lastOcc]
  | cons r rest ih =>
      simp only [buildIndexGo]
      rw [ih]
      simp only [lastOcc, List.reverse_cons, List.find?_append]
      cases hfind : rest.reverse.find? (fun q => makeCompositeKey pks q.2 == k) with
      | some r2 => simp
      | none =>
          by_cases hk : makeCompositeKey pks r.2 = k
          · have hb : (makeCompositeKey pks r.2 == k) = true := beq_iff_eq.mpr hk
            simp [List.find?, hb, lookup_updateAssoc, hk]
          · have hb : (makeCompositeKey pks r.2 == k) = false :=
              beq_eq_false_iff_ne.mpr hk
            have hk2 : ¬ k = makeCompositeKey pks r.2 := fun hc => hk hc.symm
            simp [List.find?, hb, lookup_updateAssoc, hk2]

theorem lookup_buildIndexGo_nil {α : Type} (pks : List String)
    (f : Nat × Row → α) (rows : List (Nat × Row)) (k : String) :
    List.lookup k (buildIndexGo pks f [] rows) = (lastOcc pks rows k).map f := by
  rw [lookup_buildIndexGo]
  cases lastOcc pks rows k <;> simp [List.lookup]

theorem nodup_keys_buildIndexGo {α : Type} (pks : List String)
    (f : Nat × Row → α) (rows : List (Nat × Row)) (acc : List (String × α))
    (hacc : (acc.map Prod.fst).Nodup) :
    ((buildIndexGo pks f acc rows).map Prod.fst).Nodup := by
  induction rows generalizing acc with
  | nil => simpa [buildIndexGo] using hacc
  | cons r rest ih =>
      simp only [buildIndexGo]
      exact ih _ (nodup_keys_updateAssoc _ _ _ hacc)

theorem lastOcc_eq_none (pks : List String) (rows : List (Nat × Row))
    (k : String) :
    lastOcc pks rows k = none ↔
      k ∉ rows.map (fun r => makeCompositeKey pks r.2) := by
  simp only [lastOcc, List.find?_eq_none, List.mem_reverse, List.mem_map]
  constructor
  · rintro h ⟨r, hr, hkey⟩
    exact (h r hr) (beq_iff_eq.mpr hkey)
  · intro h r hr hbeq
    exact h ⟨r, hr, beq_iff_eq.mp hbeq⟩

theorem mem_keys_buildIndexGo {α : Type} (pks : List String)
    (f : Nat × Row → α) (rows : List (Nat × Row)) (k : String) :
    k ∈ (buildIndexGo pks f [] rows).map Prod.fst ↔
      k ∈ rows.map (fun r => makeCompositeKey pks r.2) := by
  rw [← not_iff_not, ← lookupA_eq_none, lookup_buildIndexGo_nil,
    Option.map_eq_none', lastOcc_eq_none]

theorem lookup_buildNeeded {α : Type} (pks : List String) (changed : List String)
    (f : Nat × Row → α) (rows : List (Nat × Row)) (acc : List (String × α))
    (k : String) :
    List.lookup k (buildNeeded pks changed f acc rows) =
      if k ∈ changed then
        match lastOcc pks rows k with
        | some r => some (f r)
        | none => List.lookup k acc
      else List.lookup k acc := by
  induction rows generalizing acc with
  | nil =>
      by_cases hc : k ∈ changed <;> simp [buildNeeded, lastOcc, hc]
  | cons r rest ih =>
      simp only [buildNeeded]
      rw [ih]
      by_cases hc : k ∈ changed
      · simp only [hc, if_true, lastOcc, List.reverse_cons, List.find?_append]
        cases hfind : rest.reverse.find? (fun q => makeCompositeKey pks q.2 == k) with
        | some r2 => simp
        | none =>
            by_cases hk : makeCompositeKey pks r.2 = k
            · have hb : (makeCompositeKey pks r.2 == k) = true := beq_iff_eq.mpr hk
              rw [hk]
              simp [List.find?, hb, hc, lookup_updateAssoc]
            · have hb : (makeCompositeKey pks r.2 == k) = false :=
                beq_eq_false_iff_ne.mpr hk
              have hk2 : ¬ k = makeCompositeKey pks r.2 := fun hcc => hk hcc.symm
              by_cases hmem : makeCompositeKey pks r.2 ∈ changed <;>
                simp [List.find?, hb, hmem, lookup_updateAssoc, hk2]
      · simp only [hc, if_false]
        by_cases hmem : makeCompositeKey pks r.2 ∈ changed
        · have hk2 : ¬ k = makeCompositeKey pks r.2 := by
            rintro rfl; exact hc hmem
          simp [hmem, lookup_updateAssoc, hk2]
        · simp [hmem]

/-! ## Added-row scan lemmas -/

theorem addedScan_key_not_seen (pks : List String)
    (prodIndex : List (String × IndexEntry)) (rows : List (Nat × Row))
    (seen : List String) (p : Nat × Row) (hp : p ∈ addedScan pks prodIndex seen rows) :
    makeCompositeKey pks p.2 ∉ seen := by
  induction rows generalizing seen with
  | nil => simp [addedScan] at hp
  | cons r rest ih =>
      obtain ⟨ln, row⟩ := r
      simp only [addedScan] at hp
      split at hp
      · next hcond =>
          rcases List.mem_cons.mp hp with rfl | htl
          · exact hcond.2
          · intro hmem
            exact (ih _ htl) (List.mem_cons_of_mem _ hmem)
      · exact ih _ hp

theorem addedScan_lookup_none (pks : List String)
    (prodIndex : List (String × IndexEntry)) (rows : List (Nat × Row))
    (seen : List String) (p : Nat × Row) (hp : p ∈ addedScan pks prodIndex seen rows) :
    List.lookup (makeCompositeKey pks p.2) prodIndex = none := by
  induction rows generalizing seen with
  | nil => simp [addedScan] at hp
  | cons r rest ih =>
      obtain ⟨ln, row⟩ := r
      simp only [addedScan] at hp
      split at hp
      · next hcond =>
          rcases List.mem_cons.mp hp with rfl | htl
          · exact hcond.1
          · exact ih _ htl
      · exact ih _ hp

theorem addedScan_first_occurrence (pks : List String)
    (prodIndex : List (String × IndexEntry)) (rows : List (Nat × Row))
    (seen : List String) (p : Nat × Row)
    (hp : p ∈ addedScan pks prodIndex seen rows) :
    rows.find? (fun q => makeCompositeKey pks q.2 == makeCompositeKey pks p.2) =
      some p := by
  induction rows generalizing seen with
  | nil => simp [addedScan] at hp
  | cons r rest ih =>
      obtain ⟨ln, row⟩ := r
      simp only [addedScan] at hp
      split at hp
      · next hcond =>
          rcases List.mem_cons.mp hp with rfl | htl
          · have hb : (makeCompositeKey pks row == makeCompositeKey pks row) = true :=
              beq_iff_eq.mpr rfl
            simp [List.find?, hb]
          · have hne : makeCompositeKey pks p.2 ≠ makeCompositeKey pks row := by
              intro hceq
              have := addedScan_key_not_seen pks prodIndex rest _ p htl
              exact this (hceq ▸ List.mem_cons_self _ _)
            have hb : (makeCompositeKey pks row == makeCompositeKey pks p.2) = false :=
              beq_eq_false_iff_ne.mpr fun hcc => hne hcc.symm
            simp only [List.find?, hb]
            exact ih _ htl
      · next hcond =>
          have hne : makeCompositeKey pks p.2 ≠ makeCompositeKey pks row := by
            intro hceq
            apply hcond
            rw [← hceq]
            exact ⟨addedScan_lookup_none pks prodIndex rest seen p hp,
              addedScan_key_not_seen pks prodIndex rest seen p hp⟩
          have hb : (makeCompositeKey pks row == makeCompositeKey pks p.2) = false :=
            beq_eq_false_iff_ne.mpr fun hcc => hne hcc.symm
          simp only [List.find?, hb]
          exact ih _ hp

/-! ## Cardinality of the added-key scan -/

/-- Spec-side view: the set of distinct composite keys of a table's rows. -/
def keyFinset (pks : List String) (rows : List (Nat × Row)) : Finset String :=
  (rows.map fun r => makeCompositeKey pks r.2).toFinset

theorem addedScan_length (pks : List String)
    (prodIndex : List (String × IndexEntry)) (rows : List (Nat × Row))
    (seen : List String) :
    (addedScan pks prodIndex seen rows).length =
      (keyFinset pks rows \
        ((prodIndex.map Prod.fst).toFinset ∪ seen.toFinset)).card := by
  induction rows generalizing seen with
  | nil => simp [addedScan, keyFinset]
  | cons r rest ih =>
      obtain ⟨ln, row⟩ := r
      have hkeyF : keyFinset pks ((ln, row) :: rest) =
          insert (makeCompositeKey pks row) (keyFinset pks rest) := by
        simp [keyFinset]
      simp only [addedScan]
      split
      · next hcond =>
          have hknotin : makeCompositeKey pks row ∉
              (prodIndex.map Prod.fst).toFinset ∪ seen.toFinset := by
            simp only [Finset.mem_union, List.mem_toFinset]
            rintro (hidx | hseen)
            · exact ((lookupA_eq_none prodIndex _).mp hcond.1) hidx
            · exact hcond.2 hseen
          rw [List.length_cons, ih, hkeyF]
          have hset : insert (makeCompositeKey pks row) (keyFinset pks rest) \
              ((prodIndex.map Prod.fst).toFinset ∪ seen.toFinset) =
              insert (makeCompositeKey pks row)
                (keyFinset pks rest \
                  ((prodIndex.map Prod.fst).toFinset ∪
                    (makeCompositeKey pks row :: seen).toFinset)) := by
            ext x
            by_cases hx : x = makeCompositeKey pks row
            · subst hx
              simp only [Finset.mem_sdiff, Finset.mem_insert, Finset.mem_union,
                List.mem_toFinset] at hknotin ⊢
              tauto
            · simp only [Finset.mem_sdiff, Finset.mem_insert, Finset.mem_union,
                List.mem_toFinset, List.mem_cons] at hknotin ⊢
              tauto
          have hnm : makeCompositeKey pks row ∉
              keyFinset pks rest \
                ((prodIndex.map Prod.fst).toFinset ∪
                  (makeCompositeKey pks row :: seen).toFinset) := by
            simp [Finset.mem_sdiff]
          rw [hset, Finset.card_insert_of_not_mem hnm]
      · next hcond =>
          have hkin : makeCompositeKey pks row ∈
              (prodIndex.map Prod.fst).toFinset ∪ seen.toFinset := by
            simp only [Finset.mem_union, List.mem_toFinset]
            by_cases h1 : List.lookup (makeCompositeKey pks row) prodIndex = none
            · by_cases h2 : makeCompositeKey pks row ∈ seen
              · exact Or.inr h2
              · exact absurd ⟨h1, h2⟩ hcond
            · exact Or.inl (by
                by_contra hni
                exact h1 ((lookupA_eq_none prodIndex _).mpr hni))
          rw [ih, hkeyF]
          congr 1
          ext x
          by_cases hx : x = makeCompositeKey pks row
          · subst hx
            simp only [Finset.mem_sdiff, Finset.mem_insert, Finset.mem_union,
              List.mem_toFinset] at hkin ⊢
            tauto
          · simp only [Finset.mem_sdiff, Finset.mem_insert, hx, false_or]

/-! ## Example-map size lemmas -/

theorem length_foldl_updateAssoc {α : Type} (l : List (String × α))
    (acc : List (String × α)) :
    (l.foldl (fun m e => updateAssoc m e.1 e.2) acc).length ≤
      acc.length + l.length := by
  induction l generalizing acc with
  | nil => simp
  | cons e rest ih =>
      simp only [List.foldl_cons, List.length_cons]
      have h1 := ih (updateAssoc acc e.1 e.2)
      have h2 := length_updateAssoc_le acc e.1 e.2
      omega

theorem collectExamples_length_le {α : Type} (maxE : Nat)
    (items : List (String × α)) :
    (collectExamples maxE items).length ≤ maxE := by
  unfold collectExamples
  have h1 := length_foldl_updateAssoc (items.take maxE) []
  have h2 : (items.take maxE).length ≤ maxE := by
    simp
  simp only [List.length_nil, Nat.zero_add] at h1
  exact le_trans h1 h2

theorem mem_updateAssoc_sub {α : Type} (m : List (String × α)) (k : String)
    (v : α) (e : String × α) (he : e ∈ updateAssoc m k v) :
    e ∈ m ∨ e = (k, v) := by
  induction m with
  | nil => simpa [updateAssoc] using he
  | cons hd tl ih =>
      obtain ⟨k0, v0⟩ := hd
      by_cases h0 : k0 = k
      · subst h0
        simp only [updateAssoc, if_pos rfl] at he
        rcases List.mem_cons.mp he with rfl | htl
        · exact Or.inr rfl
        · exact Or.inl (List.mem_cons_of_mem _ htl)
      · simp only [updateAssoc, if_neg h0] at he
        rcases List.mem_cons.mp he with rfl | htl
        · exact Or.inl (List.mem_cons_self _ _)
        · rcases ih htl with h | h
          · exact Or.inl (List.mem_cons_of_mem _ h)
          · exact Or.inr h

theorem mem_foldl_updateAssoc {α : Type} (l : List (String × α))
    (acc : List (String × α)) (e : String × α)
    (he : e ∈ l.foldl (fun m x => updateAssoc m x.1 x.2) acc) :
    e ∈ acc ∨ e ∈ l := by
  induction l generalizing acc with
  | nil => exact Or.inl (by simpa using he)
  | cons x rest ih =>
      simp only [List.foldl_cons] at he
      rcases ih (updateAssoc acc x.1 x.2) he with h | h
      · rcases mem_updateAssoc_sub acc x.1 x.2 e h with h2 | h2
        · exact Or.inl h2
        · exact Or.inr (h2 ▸ List.mem_cons_self _ _)
      · exact Or.inr (List.mem_cons_of_mem _ h)

theorem mem_collectExamples {α : Type} (maxE : Nat)
    (items : List (String × α)) (e : String × α)
    (he : e ∈ collectExamples maxE items) : e ∈ items.take maxE := by
  rcases mem_foldl_updateAssoc _ _ _ he with h | h
  · simp at h
  · exact h

theorem pass3Step_inv (cfg : DifferConfig) (commonKeys : List String)
    (prodIndex : List (String × IndexEntry)) (meaningfulKeys : List String)
    (neededProd : List (String × Row)) (neededDev : List (String × (Nat × Row)))
    (st : Pass3State) (k : String)
    (h : st.collected ≤ cfg.maxExamples ∧ st.exampleIds.length ≤ st.collected) :
    (pass3Step cfg commonKeys prodIndex meaningfulKeys neededProd neededDev st
        k).collected ≤ cfg.maxExamples ∧
      (pass3Step cfg commonKeys prodIndex meaningfulKeys neededProd neededDev st
          k).exampleIds.length ≤
        (pass3Step cfg commonKeys prodIndex meaningfulKeys neededProd neededDev st
            k).collected := by
  cases hl1 : List.lookup k neededProd with
  | none => simpa [pass3Step, hl1] using h
  | some prow =>
      cases hl2 : List.lookup k neededDev with
      | none => simpa [pass3Step, hl1, hl2] using h
      | some pr =>
          obtain ⟨dln, drow⟩ := pr
          simp only [pass3Step, hl1, hl2]
          split
          · split
            · next hlt =>
                constructor
                · simpa using hlt
                · simp only []
                  have := length_updateAssoc_le st.exampleIds
                    (getPrimaryKeyDisplay cfg.primaryKeys drow)
                    (((List.lookup k prodIndex).map IndexEntry.line).getD 0, dln)
                  omega
            · simpa using h
          · simpa using h

theorem pass3_foldl_inv (cfg : DifferConfig) (commonKeys : List String)
    (prodIndex : List (String × IndexEntry)) (meaningfulKeys : List String)
    (neededProd : List (String × Row)) (neededDev : List (String × (Nat × Row)))
    (keys : List String) (st : Pass3State)
    (h : st.collected ≤ cfg.maxExamples ∧ st.exampleIds.length ≤ st.collected) :
    (keys.foldl
        (pass3Step cfg commonKeys prodIndex meaningfulKeys neededProd neededDev)
        st).collected ≤ cfg.maxExamples ∧
      (keys.foldl
          (pass3Step cfg commonKeys prodIndex meaningfulKeys neededProd neededDev)
          st).exampleIds.length ≤
        (keys.foldl
            (pass3Step cfg commonKeys prodIndex meaningfulKeys neededProd
              neededDev)
            st).collected := by
  induction keys generalizing st with
  | nil => simpa using h
  | cons k rest ih =>
      simp only [List.foldl_cons]
      exact ih _ (pass3Step_inv cfg commonKeys prodIndex meaningfulKeys neededProd
        neededDev st k h)

theorem pass3_foldl_cap (cfg : DifferConfig) (commonKeys : List String)
    (prodIndex : List (String × IndexEntry)) (meaningfulKeys : List String)
    (neededProd : List (String × Row)) (neededDev : List (String × (Nat × Row)))
    (keys : List String) :
    (keys.foldl
        (pass3Step cfg commonKeys prodIndex meaningfulKeys neededProd neededDev)
        ⟨[], [], 0⟩).exampleIds.length ≤ cfg.maxExamples := by
  have h := pass3_foldl_inv cfg commonKeys prodIndex meaningfulKeys neededProd
    neededDev keys ⟨[], [], 0⟩ ⟨Nat.zero_le _, Nat.le_refl 0⟩
  exact le_trans h.2 h.1

/-! ## Filter length as a Finset cardinality -/

theorem length_filter_eq_card {α : Type} (l : List (String × α))
    (P : String × α → Bool) (Q : String → Bool)
    (hnd : (l.map Prod.fst).Nodup)
    (hPQ : ∀ e ∈ l, P e = Q e.1) :
    (l.filter P).length =
      ((l.map Prod.fst).toFinset.filter (fun k => Q k = true)).card := by
  induction l with
  | nil => simp
  | cons e rest ih =>
      rw [List.map_cons] at hnd
      have hnd2 := List.nodup_cons.mp hnd
      have hknotin : e.1 ∉ rest.map Prod.fst := hnd2.1
      have hrec := ih hnd2.2 (fun x hx => hPQ x (List.mem_cons_of_mem _ hx))
      have hPQe := hPQ e (List.mem_cons_self _ _)
      by_cases hq : Q e.1 = true
      · have hp : P e = true := by rw [hPQe]; exact hq
        have hnm : e.1 ∉ (rest.map Prod.fst).toFinset.filter
            (fun k => Q k = true) := fun hmem =>
          hknotin (List.mem_toFinset.mp (Finset.mem_of_mem_filter _ hmem))
        simp only [List.filter_cons, hp, if_true, List.length_cons, hrec,
          List.map_cons, List.toFinset_cons, Finset.filter_insert, hq,
          Finset.card_insert_of_not_mem hnm]
      · have hp : P e = false := by rw [hPQe]; simpa using hq
        simp only [List.filter_cons, hp, Bool.false_eq_true, if_false, hrec,
          List.map_cons, List.toFinset_cons, Finset.filter_insert, hq]

/-! ## Hash congruence: equal column values give equal digests -/

theorem hashRow_congr (keys : List String) (a b : Row)
    (h : ∀ k ∈ keys, rget a k = rget b k) : hashRow a keys = hashRow b keys := by
  unfold hashRow sortStrings
  congr 1
  apply List.map_congr_left
  intro k hk
  exact h k ((List.perm_insertionSort _ keys).mem_iff.mp hk)

theorem exists_col_diff_of_hash_ne (keys : List String) (a b : Row)
    (h : hashRow a keys ≠ hashRow b keys) : ∃ k ∈ keys, rget a k ≠ rget b k := by
  by_contra hall
  push_neg at hall
  exact h (hashRow_congr keys a b hall)

theorem rget_projRow (commonKeys : List String) (row : Row) (k : String)
    (hk : k ∈ commonKeys) : rget (projRow commonKeys row) k = rget row k := by
  induction commonKeys with
  | nil => simp at hk
  | cons c rest ih =>
      by_cases hc : k = c
      · subst hc
        have hb : (k == k) = true := beq_iff_eq.mpr rfl
        simp [projRow, rget, List.lookup, hb]
      · have hb : (k == c) = false := beq_eq_false_iff_ne.mpr hc
        have hkr : k ∈ rest := by
          rcases List.mem_cons.mp hk with h1 | h1
          · exact absurd h1 hc
          · exact h1
        simpa [projRow, rget, List.lookup, hb] using ih hkr

/-! ## Spec-side per-key classification and count characterizations -/

/-- Spec-side: key `k` is a meaningful update — judged, as the code's Pass 2
does, on the digests of the last occurrence of `k` on each side: both the
full digest and the significant digest differ. -/
def meaningfulKeyPred (cfg : DifferConfig) (commonKeys comparisonKeys : List String)
    (prodRows devRows : List (Nat × Row)) (k : String) : Bool :=
  match lastOcc cfg.primaryKeys prodRows k, lastOcc cfg.primaryKeys devRows k with
  | some rp, some rd =>
      (devEntry commonKeys comparisonKeys rd).fullHash !=
          (prodEntry cfg commonKeys comparisonKeys rp).fullHash &&
        (devEntry commonKeys comparisonKeys rd).compHash !=
          (prodEntry cfg commonKeys comparisonKeys rp).compHash
  | _, _ => false

/-- Spec-side: key `k` is a noise-only update — full digest differs while the
significant digest matches, judged on the last occurrences. -/
def excludedOnlyKeyPred (cfg : DifferConfig)
    (commonKeys comparisonKeys : List String)
    (prodRows devRows : List (Nat × Row)) (k : String) : Bool :=
  match lastOcc cfg.primaryKeys prodRows k, lastOcc cfg.primaryKeys devRows k with
  | some rp, some rd =>
      (devEntry commonKeys comparisonKeys rd).fullHash !=
          (prodEntry cfg commonKeys comparisonKeys rp).fullHash &&
        (devEntry commonKeys comparisonKeys rd).compHash ==
          (prodEntry cfg commonKeys comparisonKeys rp).compHash
  | _, _ => false

theorem keys_toFinset_buildIndexGo {α : Type} (pks : List String)
    (f : Nat × Row → α) (rows : List (Nat × Row)) :
    ((buildIndexGo pks f [] rows).map Prod.fst).toFinset = keyFinset pks rows := by
  ext x
  rw [List.mem_toFinset, mem_keys_buildIndexGo, keyFinset, List.mem_toFinset]

theorem processDifferences_rows_added (cfg : DifferConfig)
    (prodRows devRows : List (Nat × Row)) (commonKeys comparisonKeys : List String) :
    (processDifferences cfg prodRows devRows commonKeys comparisonKeys).rows_added =
      (keyFinset cfg.primaryKeys devRows \ keyFinset cfg.primaryKeys prodRows).card := by
  simp only [processDifferences, prodIndexOf]
  rw [addedScan_length, keys_toFinset_buildIndexGo]
  simp

theorem processDifferences_rows_removed (cfg : DifferConfig)
    (prodRows devRows : List (Nat × Row)) (commonKeys comparisonKeys : List String) :
    (processDifferences cfg prodRows devRows commonKeys comparisonKeys).rows_removed =
      (keyFinset cfg.primaryKeys prodRows \ keyFinset cfg.primaryKeys devRows).card := by
  simp only [processDifferences, removedEntries, prodIndexOf, devIndexOf]
  rw [length_filter_eq_card _ _
    (fun k => (List.lookup k
      (buildIndexGo cfg.primaryKeys (devEntry commonKeys comparisonKeys) []
        devRows)).isNone)
    (nodup_keys_buildIndexGo _ _ _ _ (by simp)) (fun e _ => rfl)]
  rw [keys_toFinset_buildIndexGo]
  congr 1
  ext x
  simp only [Finset.mem_filter, Finset.mem_sdiff, Option.isNone_iff_eq_none,
    lookupA_eq_none, mem_keys_buildIndexGo, keyFinset, List.mem_toFinset]

theorem processDifferences_rows_updated (cfg : DifferConfig)
    (prodRows devRows : List (Nat × Row)) (commonKeys comparisonKeys : List String) :
    (processDifferences cfg prodRows devRows commonKeys comparisonKeys).rows_updated =
      ((keyFinset cfg.primaryKeys devRows).filter
        (fun k =>
          meaningfulKeyPred cfg commonKeys comparisonKeys prodRows devRows k =
            true)).card := by
  simp only [processDifferences, meaningfulEntries, prodIndexOf, devIndexOf,
    List.length_map]
  rw [length_filter_eq_card _ _
    (fun k => meaningfulKeyPred cfg commonKeys comparisonKeys prodRows devRows k)
    (nodup_keys_buildIndexGo _ _ _ _ (by simp)) ?_]
  · rw [keys_toFinset_buildIndexGo]
  · intro e he
    have hnd := nodup_keys_buildIndexGo cfg.primaryKeys
      (devEntry commonKeys comparisonKeys) devRows [] (by simp)
    have hl := mem_lookup_of_nodup _ _ _ he hnd
    rw [lookup_buildIndexGo_nil] at hl
    have hlp := lookup_buildIndexGo_nil cfg.primaryKeys
      (prodEntry cfg commonKeys comparisonKeys) prodRows e.1
    cases hdev : lastOcc cfg.primaryKeys devRows e.1 with
    | none => rw [hdev] at hl; simp at hl
    | some rd =>
        rw [hdev] at hl
        simp only [Option.map_some'] at hl
        have he2 : e.2 = devEntry commonKeys comparisonKeys rd :=
          (Option.some.injEq .. ▸ hl).symm
        cases hprod : lastOcc cfg.primaryKeys prodRows e.1 with
        | none =>
            simp [meaningfulKeyPred, hdev, hprod, hlp]
        | some rp =>
            simp [meaningfulKeyPred, hdev, hprod, hlp, he2]

theorem processDifferences_rows_excluded_only (cfg : DifferConfig)
    (prodRows devRows : List (Nat × Row)) (commonKeys comparisonKeys : List String) :
    (processDifferences cfg prodRows devRows commonKeys
        comparisonKeys).rows_updated_excluded_only =
      ((keyFinset cfg.primaryKeys devRows).filter
        (fun k =>
          excludedOnlyKeyPred cfg commonKeys comparisonKeys prodRows devRows k =
            true)).card := by
  simp only [processDifferences, excludedOnlyEntries, prodIndexOf, devIndexOf]
  rw [length_filter_eq_card _ _
    (fun k => excludedOnlyKeyPred cfg commonKeys comparisonKeys prodRows devRows k)
    (nodup_keys_buildIndexGo _ _ _ _ (by simp)) ?_]
  · rw [keys_toFinset_buildIndexGo]
  · intro e he
    have hnd := nodup_keys_buildIndexGo cfg.primaryKeys
      (devEntry commonKeys comparisonKeys) devRows [] (by simp)
    have hl := mem_lookup_of_nodup _ _ _ he hnd
    rw [lookup_buildIndexGo_nil] at hl
    have hlp := lookup_buildIndexGo_nil cfg.primaryKeys
      (prodEntry cfg commonKeys comparisonKeys) prodRows e.1
    cases hdev : lastOcc cfg.primaryKeys devRows e.1 with
    | none => rw [hdev] at hl; simp at hl
    | some rd =>
        rw [hdev] at hl
        simp only [Option.map_some'] at hl
        have he2 : e.2 = devEntry commonKeys comparisonKeys rd :=
          (Option.some.injEq .. ▸ hl).symm
        cases hprod : lastOcc cfg.primaryKeys prodRows e.1 with
        | none =>
            simp [excludedOnlyKeyPred, hdev, hprod, hlp]
        | some rp =>
            simp [excludedOnlyKeyPred, hdev, hprod, hlp, he2]

/-! ## Claim theorems -/

theorem stringContains_iff (l : List String) (a : String) :
    l.contains a = true ↔ a ∈ l := by
  rw [List.contains_iff_exists_mem_beq]
  constructor
  · rintro ⟨x, hx, hbeq⟩
    exact (beq_iff_eq.mp hbeq) ▸ hx
  · intro h
    exact ⟨a, h, beq_iff_eq.mpr rfl⟩

/-- C3: for every configuration whose key-column list contains a column
absent from either table's headers, `compute_diff` fails with an error
before any full-file streaming pass (the outcome does not depend on the
data rows at all), the error names missing key column(s) together with the
sorted available columns of the side it reports, and no diff result is
returned.  (When keys are missing on both sides the code reports the
production side, which is checked first.) -/
theorem C3_missing_key_fail_fast (cfg : DifferConfig) (prodTable devTable : Table)
    (h : ∃ k ∈ cfg.primaryKeys, k ∉ prodTable.headers ∨ k ∉ devTable.headers) :
    ∃ e : KeyColumnError,
      computeDiff cfg prodTable devTable = .error e ∧
      e.missingKeys ≠ [] ∧
      (∀ k ∈ e.missingKeys, k ∈ cfg.primaryKeys ∧
        k ∉ (match e.side with
             | Side.prod => prodTable.headers
             | Side.dev => devTable.headers)) ∧
      e.availableColumns = sortStrings
        (match e.side with
         | Side.prod => prodTable.headers.dedup
         | Side.dev => devTable.headers.dedup) ∧
      (∀ rowsA rowsB, computeDiff cfg ⟨prodTable.headers, rowsA⟩
          ⟨devTable.headers, rowsB⟩ = .error e) := by
  obtain ⟨k0, hk0, hmiss⟩ := h
  by_cases hp : (cfg.primaryKeys.filter
      (fun k => !(prodTable.headers.dedup.contains k))) = []
  · have hkdev : k0 ∉ devTable.headers := by
      rcases hmiss with hm | hm
      · exfalso
        have hmem : k0 ∈ cfg.primaryKeys.filter
            (fun k => !(prodTable.headers.dedup.contains k)) := by
          rw [List.mem_filter]
          refine ⟨hk0, ?_⟩
          rw [Bool.not_eq_true', ← Bool.not_eq_true]
          intro hc
          exact hm (List.mem_dedup.mp ((stringContains_iff _ _).mp hc))
        rw [hp] at hmem
        simp at hmem
      · exact hm
    have hd : (cfg.primaryKeys.filter
        (fun k => !(devTable.headers.dedup.contains k))) ≠ [] := by
      intro hnil
      have hmem : k0 ∈ cfg.primaryKeys.filter
          (fun k => !(devTable.headers.dedup.contains k)) := by
        rw [List.mem_filter]
        refine ⟨hk0, ?_⟩
        rw [Bool.not_eq_true', ← Bool.not_eq_true]
        intro hc
        exact hkdev (List.mem_dedup.mp ((stringContains_iff _ _).mp hc))
      rw [hnil] at hmem
      simp at hmem
    refine ⟨⟨Side.dev,
      cfg.primaryKeys.filter (fun k => !(devTable.headers.dedup.contains k)),
      sortStrings devTable.headers.dedup⟩, ?_, hd, ?_, rfl, ?_⟩
    · simp only [computeDiff, hp]
      rw [if_neg (by simp), if_pos hd]
    · intro k hk
      rw [List.mem_filter] at hk
      refine ⟨hk.1, fun hmem => ?_⟩
      have hk2 := hk.2
      rw [Bool.not_eq_true', ← Bool.not_eq_true] at hk2
      exact hk2 ((stringContains_iff _ _).mpr (List.mem_dedup.mpr hmem))
    · intro rowsA rowsB
      simp only [computeDiff, hp]
      rw [if_neg (by simp), if_pos hd]
  · refine ⟨⟨Side.prod,
      cfg.primaryKeys.filter (fun k => !(prodTable.headers.dedup.contains k)),
      sortStrings prodTable.headers.dedup⟩, ?_, hp, ?_, rfl, ?_⟩
    · simp only [computeDiff]
      rw [if_pos hp]
    · intro k hk
      rw [List.mem_filter] at hk
      refine ⟨hk.1, fun hmem => ?_⟩
      have hk2 := hk.2
      rw [Bool.not_eq_true', ← Bool.not_eq_true] at hk2
      exact hk2 ((stringContains_iff _ _).mpr (List.mem_dedup.mpr hmem))
    · intro rowsA rowsB
      simp only [computeDiff]
      rw [if_pos hp]

/-- C3 witness: the key column "id" is missing from the production table. -/
theorem C3_witness :
    (∃ k ∈ ["id"], k ∉ ["name"] ∨ k ∉ ["id", "name"]) ∧
    (∃ e : KeyColumnError,
      computeDiff ⟨["id"], 10, ["inventory"]⟩
        ⟨["name"], [(2, [("name", "a")])]⟩
        ⟨["id", "name"], [(2, [("id", "1"), ("name", "a")])]⟩ = .error e ∧
      e.missingKeys ≠ [] ∧
      (∀ k ∈ e.missingKeys, k ∈ ["id"] ∧
        k ∉ (match e.side with
             | Side.prod => ["name"]
             | Side.dev => ["id", "name"])) ∧
      e.availableColumns = sortStrings
        (match e.side with
         | Side.prod => (["name"] : List String).dedup
         | Side.dev => (["id", "name"] : List String).dedup) ∧
      (∀ rowsA rowsB, computeDiff ⟨["id"], 10, ["inventory"]⟩
          ⟨["name"], rowsA⟩ ⟨["id", "name"], rowsB⟩ = .error e)) :=
  ⟨by decide, C3_missing_key_fail_fast ⟨["id"], 10, ["inventory"]⟩
    ⟨["name"], [(2, [("name", "a")])]⟩
    ⟨["id", "name"], [(2, [("id", "1"), ("name", "a")])]⟩ (by decide)⟩

/-- `common_keys = prod_headers ∩ dev_headers` (as computed by `compute_diff`). -/
def commonKeysOf (tA tB : Table) : List String :=
  tA.headers.dedup.filter (· ∈ tB.headers.dedup)

/-- `comparison_keys = common_keys − excluded_columns`. -/
def comparisonKeysOf (cfg : DifferConfig) (tA tB : Table) : List String :=
  (commonKeysOf tA tB).filter fun k => !(isExcludedColumn cfg.excludedPatterns k)

theorem computeDiff_eq_ok (cfg : DifferConfig) (tA tB : Table)
    (hA : ∀ k ∈ cfg.primaryKeys, k ∈ tA.headers)
    (hB : ∀ k ∈ cfg.primaryKeys, k ∈ tB.headers) :
    computeDiff cfg tA tB = .ok
      { toDiffStats := processDifferences cfg tA.rows tB.rows
          (commonKeysOf tA tB) (comparisonKeysOf cfg tA tB)
        common_keys := sortStrings (commonKeysOf tA tB)
        prod_only_keys := sortStrings (tA.headers.dedup.filter (· ∉ tB.headers.dedup))
        dev_only_keys := sortStrings (tB.headers.dedup.filter (· ∉ tA.headers.dedup))
        prod_row_count := tA.rows.length
        dev_row_count := tB.rows.length } := by
  have hpA : (cfg.primaryKeys.filter
      (fun k => !(tA.headers.dedup.contains k))) = [] := by
    rw [List.filter_eq_nil_iff]
    intro k hk
    simp only [Bool.not_eq_true', ← Bool.not_eq_true, Decidable.not_not]
    exact (stringContains_iff _ _).mpr (List.mem_dedup.mpr (hA k hk))
  have hpB : (cfg.primaryKeys.filter
      (fun k => !(tB.headers.dedup.contains k))) = [] := by
    rw [List.filter_eq_nil_iff]
    intro k hk
    simp only [Bool.not_eq_true', ← Bool.not_eq_true, Decidable.not_not]
    exact (stringContains_iff _ _).mpr (List.mem_dedup.mpr (hB k hk))
  simp only [computeDiff, hpA, hpB, commonKeysOf, comparisonKeysOf]
  rw [if_neg (by simp), if_neg (by simp)]

theorem meaningfulKeyPred_self (cfg : DifferConfig)
    (commonKeys comparisonKeys : List String) (rows : List (Nat × Row))
    (k : String) :
    meaningfulKeyPred cfg commonKeys comparisonKeys rows rows k = false := by
  unfold meaningfulKeyPred
  cases h : lastOcc cfg.primaryKeys rows k with
  | none => simp
  | some r => simp [devEntry, prodEntry]

theorem excludedOnlyKeyPred_self (cfg : DifferConfig)
    (commonKeys comparisonKeys : List String) (rows : List (Nat × Row))
    (k : String) :
    excludedOnlyKeyPred cfg commonKeys comparisonKeys rows rows k = false := by
  unfold excludedOnlyKeyPred
  cases h : lastOcc cfg.primaryKeys rows k with
  | none => simp
  | some r => simp [devEntry, prodEntry]

/-- C7: diffing a table against itself, with any key-column configuration
present in its headers, yields zero added, removed, meaningfully updated
and noise-only-updated rows. -/
theorem C7_idempotence (cfg : DifferConfig) (t : Table)
    (hkeys : ∀ k ∈ cfg.primaryKeys, k ∈ t.headers) :
    ∃ r, computeDiff cfg t t = .ok r ∧
      r.rows_added = 0 ∧ r.rows_removed = 0 ∧ r.rows_updated = 0 ∧
      r.rows_updated_excluded_only = 0 := by
  refine ⟨_, computeDiff_eq_ok cfg t t hkeys hkeys, ?_, ?_, ?_, ?_⟩
  · show (processDifferences cfg t.rows t.rows _ _).rows_added = 0
    rw [processDifferences_rows_added]
    simp
  · show (processDifferences cfg t.rows t.rows _ _).rows_removed = 0
    rw [processDifferences_rows_removed]
    simp
  · show (processDifferences cfg t.rows t.rows _ _).rows_updated = 0
    rw [processDifferences_rows_updated]
    rw [Finset.card_eq_zero, Finset.filter_eq_empty_iff]
    intro k _
    simp [meaningfulKeyPred_self]
  · show (processDifferences cfg t.rows t.rows _ _).rows_updated_excluded_only = 0
    rw [processDifferences_rows_excluded_only]
    rw [Finset.card_eq_zero, Finset.filter_eq_empty_iff]
    intro k _
    simp [excludedOnlyKeyPred_self]

/-- C7 witness: a concrete two-row table diffed against itself. -/
theorem C7_witness :
    (∀ k ∈ ["id"], k ∈ ["id", "name", "inventory"]) ∧
    (∃ r, computeDiff ⟨["id"], 10, ["inventory"]⟩
        ⟨["id", "name", "inventory"],
          [(2, [("id", "1"), ("name", "a"), ("inventory", "5")]),
           (3, [("id", "2"), ("name", "b"), ("inventory", "7")])]⟩
        ⟨["id", "name", "inventory"],
          [(2, [("id", "1"), ("name", "a"), ("inventory", "5")]),
           (3, [("id", "2"), ("name", "b"), ("inventory", "7")])]⟩ = .ok r ∧
      r.rows_added = 0 ∧ r.rows_removed = 0 ∧ r.rows_updated = 0 ∧
      r.rows_updated_excluded_only = 0) :=
  ⟨by decide, C7_idempotence ⟨["id"], 10, ["inventory"]⟩
    ⟨["id", "name", "inventory"],
      [(2, [("id", "1"), ("name", "a"), ("inventory", "5")]),
       (3, [("id", "2"), ("name", "b"), ("inventory", "7")])]⟩ (by decide)⟩

/-- C8: running the diff in both directions with the same key columns gives
`added(A,B) = removed(B,A)` and `removed(A,B) = added(B,A)`, duplicates
included (both counts reduce to cardinalities of the same set differences
of distinct-key sets). -/
theorem C8_symmetry (cfg : DifferConfig) (tA tB : Table)
    (hA : ∀ k ∈ cfg.primaryKeys, k ∈ tA.headers)
    (hB : ∀ k ∈ cfg.primaryKeys, k ∈ tB.headers) :
    ∃ r1 r2, computeDiff cfg tA tB = .ok r1 ∧ computeDiff cfg tB tA = .ok r2 ∧
      r1.rows_added = r2.rows_removed ∧ r1.rows_removed = r2.rows_added := by
  refine ⟨_, _, computeDiff_eq_ok cfg tA tB hA hB,
    computeDiff_eq_ok cfg tB tA hB hA, ?_, ?_⟩
  · show (processDifferences cfg tA.rows tB.rows _ _).rows_added =
      (processDifferences cfg tB.rows tA.rows _ _).rows_removed
    rw [processDifferences_rows_added, processDifferences_rows_removed]
  · show (processDifferences cfg tA.rows tB.rows _ _).rows_removed =
      (processDifferences cfg tB.rows tA.rows _ _).rows_added
    rw [processDifferences_rows_removed, processDifferences_rows_added]

/-- C8 witness: concrete tables; A has key 2, B has key 3, shared key 1,
with a duplicate of key 3 in B. -/
theorem C8_witness :
    (∀ k ∈ ["id"], k ∈ ["id", "v"]) ∧
    (∃ r1 r2, computeDiff ⟨["id"], 10, ["inventory"]⟩
        ⟨["id", "v"], [(2, [("id", "1"), ("v", "x")]),
                       (3, [("id", "2"), ("v", "y")])]⟩
        ⟨["id", "v"], [(2, [("id", "1"), ("v", "x")]),
                       (3, [("id", "3"), ("v", "z")]),
                       (4, [("id", "3"), ("v", "w")])]⟩ = .ok r1 ∧
      computeDiff ⟨["id"], 10, ["inventory"]⟩
        ⟨["id", "v"], [(2, [("id", "1"), ("v", "x")]),
                       (3, [("id", "3"), ("v", "z")]),
                       (4, [("id", "3"), ("v", "w")])]⟩
        ⟨["id", "v"], [(2, [("id", "1"), ("v", "x")]),
                       (3, [("id", "2"), ("v", "y")])]⟩ = .ok r2 ∧
      r1.rows_added = r2.rows_removed ∧ r1.rows_removed = r2.rows_added) :=
  ⟨by decide, C8_symmetry ⟨["id"], 10, ["inventory"]⟩
    ⟨["id", "v"], [(2, [("id", "1"), ("v", "x")]),
                   (3, [("id", "2"), ("v", "y")])]⟩
    ⟨["id", "v"], [(2, [("id", "1"), ("v", "x")]),
                   (3, [("id", "3"), ("v", "z")]),
                   (4, [("id", "3"), ("v", "w")])]⟩ (by decide) (by decide)⟩

/-- C4: the three example mappings never exceed `max_examples` entries,
while the count fields equal the true uncapped totals — the number of
distinct keys in each category (added, removed, meaningfully updated). -/
theorem C4_example_cap (cfg : DifferConfig) (tA tB : Table)
    (hA : ∀ k ∈ cfg.primaryKeys, k ∈ tA.headers)
    (hB : ∀ k ∈ cfg.primaryKeys, k ∈ tB.headers) :
    ∃ r, computeDiff cfg tA tB = .ok r ∧
      r.example_ids.length ≤ cfg.maxExamples ∧
      r.example_ids_added.length ≤ cfg.maxExamples ∧
      r.example_ids_removed.length ≤ cfg.maxExamples ∧
      r.rows_added = (keyFinset cfg.primaryKeys tB.rows \
        keyFinset cfg.primaryKeys tA.rows).card ∧
      r.rows_removed = (keyFinset cfg.primaryKeys tA.rows \
        keyFinset cfg.primaryKeys tB.rows).card ∧
      r.rows_updated = ((keyFinset cfg.primaryKeys tB.rows).filter
        (fun k => meaningfulKeyPred cfg (commonKeysOf tA tB)
          (comparisonKeysOf cfg tA tB) tA.rows tB.rows k = true)).card := by
  refine ⟨_, computeDiff_eq_ok cfg tA tB hA hB, ?_, ?_, ?_, ?_, ?_, ?_⟩
  · show (processDifferences cfg tA.rows tB.rows (commonKeysOf tA tB)
      (comparisonKeysOf cfg tA tB)).example_ids.length ≤ cfg.maxExamples
    simp only [processDifferences]
    exact pass3_foldl_cap _ _ _ _ _ _ _
  · show (processDifferences cfg tA.rows tB.rows (commonKeysOf tA tB)
      (comparisonKeysOf cfg tA tB)).example_ids_added.length ≤ cfg.maxExamples
    simp only [processDifferences]
    exact collectExamples_length_le _ _
  · show (processDifferences cfg tA.rows tB.rows (commonKeysOf tA tB)
      (comparisonKeysOf cfg tA tB)).example_ids_removed.length ≤ cfg.maxExamples
    simp only [processDifferences]
    exact collectExamples_length_le _ _
  · show (processDifferences cfg tA.rows tB.rows (commonKeysOf tA tB)
      (comparisonKeysOf cfg tA tB)).rows_added = _
    rw [processDifferences_rows_added]
  · show (processDifferences cfg tA.rows tB.rows (commonKeysOf tA tB)
      (comparisonKeysOf cfg tA tB)).rows_removed = _
    rw [processDifferences_rows_removed]
  · show (processDifferences cfg tA.rows tB.rows (commonKeysOf tA tB)
      (comparisonKeysOf cfg tA tB)).rows_updated = _
    rw [processDifferences_rows_updated]

/-- C4 witness: cap of 1 with two added, two removed and two meaningfully
changed keys; the counts stay at 2 while each example map holds 1 entry. -/
theorem C4_witness :
    (∀ k ∈ ["id"], k ∈ ["id", "v"]) ∧
    (∃ r, computeDiff ⟨["id"], 1, ["inventory"]⟩
        ⟨["id", "v"], [(2, [("id", "1"), ("v", "a")]),
                       (3, [("id", "2"), ("v", "b")]),
                       (4, [("id", "3"), ("v", "c")]),
                       (5, [("id", "4"), ("v", "d")])]⟩
        ⟨["id", "v"], [(2, [("id", "1"), ("v", "a2")]),
                       (3, [("id", "2"), ("v", "b2")]),
                       (4, [("id", "5"), ("v", "e")]),
                       (5, [("id", "6"), ("v", "f")])]⟩ = .ok r ∧
      r.example_ids.length ≤ 1 ∧
      r.example_ids_added.length ≤ 1 ∧
      r.example_ids_removed.length ≤ 1 ∧
      r.rows_added = (keyFinset ["id"]
          [(2, [("id", "1"), ("v", "a2")]), (3, [("id", "2"), ("v", "b2")]),
           (4, [("id", "5"), ("v", "e")]), (5, [("id", "6"), ("v", "f")])] \
        keyFinset ["id"]
          [(2, [("id", "1"), ("v", "a")]), (3, [("id", "2"), ("v", "b")]),
           (4, [("id", "3"), ("v", "c")]), (5, [("id", "4"), ("v", "d")])]).card ∧
      r.rows_removed = (keyFinset ["id"]
          [(2, [("id", "1"), ("v", "a")]), (3, [("id", "2"), ("v", "b")]),
           (4, [("id", "3"), ("v", "c")]), (5, [("id", "4"), ("v", "d")])] \
        keyFinset ["id"]
          [(2, [("id", "1"), ("v", "a2")]), (3, [("id", "2"), ("v", "b2")]),
           (4, [("id", "5"), ("v", "e")]), (5, [("id", "6"), ("v", "f")])]).card ∧
      r.rows_updated = ((keyFinset ["id"]
          [(2, [("id", "1"), ("v", "a2")]), (3, [("id", "2"), ("v", "b2")]),
           (4, [("id", "5"), ("v", "e")]), (5, [("id", "6"), ("v", "f")])]).filter
        (fun k => meaningfulKeyPred ⟨["id"], 1, ["inventory"]⟩
          (commonKeysOf
            ⟨["id", "v"], [(2, [("id", "1"), ("v", "a")]),
                           (3, [("id", "2"), ("v", "b")]),
                           (4, [("id", "3"), ("v", "c")]),
                           (5, [("id", "4"), ("v", "d")])]⟩
            ⟨["id", "v"], [(2, [("id", "1"), ("v", "a2")]),
                           (3, [("id", "2"), ("v", "b2")]),
                           (4, [("id", "5"), ("v", "e")]),
                           (5, [("id", "6"), ("v", "f")])]⟩)
          (comparisonKeysOf ⟨["id"], 1, ["inventory"]⟩
            ⟨["id", "v"], [(2, [("id", "1"), ("v", "a")]),
                           (3, [("id", "2"), ("v", "b")]),
                           (4, [("id", "3"), ("v", "c")]),
                           (5, [("id", "4"), ("v", "d")])]⟩
            ⟨["id", "v"], [(2, [("id", "1"), ("v", "a2")]),
                           (3, [("id", "2"), ("v", "b2")]),
                           (4, [("id", "5"), ("v", "e")]),
                           (5, [("id", "6"), ("v", "f")])]⟩)
          [(2, [("id", "1"), ("v", "a")]), (3, [("id", "2"), ("v", "b")]),
           (4, [("id", "3"), ("v", "c")]), (5, [("id", "4"), ("v", "d")])]
          [(2, [("id", "1"), ("v", "a2")]), (3, [("id", "2"), ("v", "b2")]),
           (4, [("id", "5"), ("v", "e")]), (5, [("id", "6"), ("v", "f")])]
          k = true)).card) :=
  ⟨by decide, C4_example_cap ⟨["id"], 1, ["inventory"]⟩
    ⟨["id", "v"], [(2, [("id", "1"), ("v", "a")]),
                   (3, [("id", "2"), ("v", "b")]),
                   (4, [("id", "3"), ("v", "c")]),
                   (5, [("id", "4"), ("v", "d")])]⟩
    ⟨["id", "v"], [(2, [("id", "1"), ("v", "a2")]),
                   (3, [("id", "2"), ("v", "b2")]),
                   (4, [("id", "5"), ("v", "e")]),
                   (5, [("id", "6"), ("v", "f")])]⟩ (by decide) (by decide)⟩

/-- C5: `rows_added` counts each key of B that is absent from A's index
exactly once — it equals the cardinality of the set of distinct keys of B
minus those of A, and appending a further occurrence of an already-present
key to B leaves it unchanged. -/
theorem C5_added_once_per_distinct_key (cfg : DifferConfig) (tA tB : Table)
    (hA : ∀ k ∈ cfg.primaryKeys, k ∈ tA.headers)
    (hB : ∀ k ∈ cfg.primaryKeys, k ∈ tB.headers) :
    (∃ r, computeDiff cfg tA tB = .ok r ∧
      r.rows_added = (keyFinset cfg.primaryKeys tB.rows \
        keyFinset cfg.primaryKeys tA.rows).card) ∧
    (∀ p : Nat × Row, makeCompositeKey cfg.primaryKeys p.2 ∈
        tB.rows.map (fun r => makeCompositeKey cfg.primaryKeys r.2) →
      ∃ r r2, computeDiff cfg tA tB = .ok r ∧
        computeDiff cfg tA ⟨tB.headers, tB.rows ++ [p]⟩ = .ok r2 ∧
        r2.rows_added = r.rows_added) := by
  constructor
  · refine ⟨_, computeDiff_eq_ok cfg tA tB hA hB, ?_⟩
    show (processDifferences cfg tA.rows tB.rows (commonKeysOf tA tB)
      (comparisonKeysOf cfg tA tB)).rows_added = _
    rw [processDifferences_rows_added]
  · intro p hp
    refine ⟨_, _, computeDiff_eq_ok cfg tA tB hA hB,
      computeDiff_eq_ok cfg tA ⟨tB.headers, tB.rows ++ [p]⟩ hA hB, ?_⟩
    show (processDifferences cfg tA.rows (tB.rows ++ [p]) _ _).rows_added =
      (processDifferences cfg tA.rows tB.rows _ _).rows_added
    rw [processDifferences_rows_added, processDifferences_rows_added]
    have hkf : keyFinset cfg.primaryKeys (tB.rows ++ [p]) =
        keyFinset cfg.primaryKeys tB.rows := by
      simp only [keyFinset, List.map_append, List.toFinset_append,
        List.map_cons, List.map_nil, List.toFinset_cons, List.toFinset_nil]
      rw [Finset.union_comm]
      simp only [insert_emptyc_eq]
      exact Finset.union_eq_right.mpr
        (Finset.singleton_subset_iff.mpr (List.mem_toFinset.mpr hp))
    rw [hkf]

/-- C5 witness: key 9 is new to A and occurs twice in B; rows_added is the
cardinality of the singleton set difference. -/
theorem C5_witness :
    (∀ k ∈ ["id"], k ∈ ["id", "v"]) ∧
    ((∃ r, computeDiff ⟨["id"], 10, ["inventory"]⟩
        ⟨["id", "v"], [(2, [("id", "1"), ("v", "x")])]⟩
        ⟨["id", "v"], [(2, [("id", "9"), ("v", "a")]),
                       (3, [("id", "9"), ("v", "b")])]⟩ = .ok r ∧
      r.rows_added = (keyFinset ["id"]
          [(2, [("id", "9"), ("v", "a")]), (3, [("id", "9"), ("v", "b")])] \
        keyFinset ["id"] [(2, [("id", "1"), ("v", "x")])]).card) ∧
    (∀ p : Nat × Row, makeCompositeKey ["id"] p.2 ∈
        [(2, [("id", "9"), ("v", "a")]),
         (3, [("id", "9"), ("v", "b")])].map
          (fun r => makeCompositeKey ["id"] r.2) →
      ∃ r r2, computeDiff ⟨["id"], 10, ["inventory"]⟩
          ⟨["id", "v"], [(2, [("id", "1"), ("v", "x")])]⟩
          ⟨["id", "v"], [(2, [("id", "9"), ("v", "a")]),
                         (3, [("id", "9"), ("v", "b")])]⟩ = .ok r ∧
        computeDiff ⟨["id"], 10, ["inventory"]⟩
          ⟨["id", "v"], [(2, [("id", "1"), ("v", "x")])]⟩
          ⟨["id", "v"], [(2, [("id", "9"), ("v", "a")]),
                         (3, [("id", "9"), ("v", "b")])] ++ [p]⟩ = .ok r2 ∧
        r2.rows_added = r.rows_added)) :=
  ⟨by decide, C5_added_once_per_distinct_key ⟨["id"], 10, ["inventory"]⟩
    ⟨["id", "v"], [(2, [("id", "1"), ("v", "x")])]⟩
    ⟨["id", "v"], [(2, [("id", "9"), ("v", "a")]),
                   (3, [("id", "9"), ("v", "b")])]⟩ (by decide) (by decide)⟩

/-- C1: last-occurrence-wins for duplicated keys.  For a key occurring more
than once in a table, the index entry stored under it — the line number and
digests used by the Pass-2 classification, and the line number reported for
changed and removed keys — is the one computed from the last occurrence in
the sequential scan, and the row retained for the Pass-3 detailed diff
(on either side) is likewise the projection of the last occurrence. -/
theorem C1_last_occurrence_wins (cfg : DifferConfig)
    (commonKeys comparisonKeys changed : List String)
    (rows : List (Nat × Row)) (k : String)
    (_hdup : 2 ≤ rows.countP
      (fun r => makeCompositeKey cfg.primaryKeys r.2 == k)) :
    List.lookup k (prodIndexOf cfg commonKeys comparisonKeys rows) =
      (lastOcc cfg.primaryKeys rows k).map
        (prodEntry cfg commonKeys comparisonKeys) ∧
    List.lookup k (devIndexOf cfg commonKeys comparisonKeys rows) =
      (lastOcc cfg.primaryKeys rows k).map (devEntry commonKeys comparisonKeys) ∧
    (k ∈ changed →
      List.lookup k (buildNeeded cfg.primaryKeys changed
          (fun r => projRow commonKeys r.2) [] rows) =
        (lastOcc cfg.primaryKeys rows k).map (fun r => projRow commonKeys r.2) ∧
      List.lookup k (buildNeeded cfg.primaryKeys changed
          (fun r => (r.1, projRow commonKeys r.2)) [] rows) =
        (lastOcc cfg.primaryKeys rows k).map
          (fun r => (r.1, projRow commonKeys r.2))) := by
  refine ⟨lookup_buildIndexGo_nil _ _ _ _, lookup_buildIndexGo_nil _ _ _ _,
    fun hch => ⟨?_, ?_⟩⟩
  · rw [lookup_buildNeeded, if_pos hch]
    cases lastOcc cfg.primaryKeys rows k <;> simp [List.lookup]
  · rw [lookup_buildNeeded, if_pos hch]
    cases lastOcc cfg.primaryKeys rows k <;> simp [List.lookup]

/-- C1 witness: a 3-row table whose key "1" occurs on lines 2 and 4; the
stored entries are those of line 4. -/
theorem C1_witness :
    (2 ≤ ([(2, [("id", "1"), ("v", "a")]), (3, [("id", "2"), ("v", "b")]),
           (4, [("id", "1"), ("v", "c")])] :
        List (Nat × Row)).countP (fun r => makeCompositeKey ["id"] r.2 == "1")) ∧
    (List.lookup "1" (prodIndexOf ⟨["id"], 10, ["inventory"]⟩ ["id", "v"] ["id", "v"]
        [(2, [("id", "1"), ("v", "a")]), (3, [("id", "2"), ("v", "b")]),
         (4, [("id", "1"), ("v", "c")])]) =
      (lastOcc ["id"]
          [(2, [("id", "1"), ("v", "a")]), (3, [("id", "2"), ("v", "b")]),
           (4, [("id", "1"), ("v", "c")])] "1").map
        (prodEntry ⟨["id"], 10, ["inventory"]⟩ ["id", "v"] ["id", "v"]) ∧
    List.lookup "1" (devIndexOf ⟨["id"], 10, ["inventory"]⟩ ["id", "v"] ["id", "v"]
        [(2, [("id", "1"), ("v", "a")]), (3, [("id", "2"), ("v", "b")]),
         (4, [("id", "1"), ("v", "c")])]) =
      (lastOcc ["id"]
          [(2, [("id", "1"), ("v", "a")]), (3, [("id", "2"), ("v", "b")]),
           (4, [("id", "1"), ("v", "c")])] "1").map (devEntry ["id", "v"] ["id", "v"]) ∧
    ("1" ∈ ["1"] →
      List.lookup "1" (buildNeeded ["id"] ["1"]
          (fun r => projRow ["id", "v"] r.2) []
          [(2, [("id", "1"), ("v", "a")]), (3, [("id", "2"), ("v", "b")]),
           (4, [("id", "1"), ("v", "c")])]) =
        (lastOcc ["id"]
            [(2, [("id", "1"), ("v", "a")]), (3, [("id", "2"), ("v", "b")]),
             (4, [("id", "1"), ("v", "c")])] "1").map
          (fun r => projRow ["id", "v"] r.2) ∧
      List.lookup "1" (buildNeeded ["id"] ["1"]
          (fun r => (r.1, projRow ["id", "v"] r.2)) []
          [(2, [("id", "1"), ("v", "a")]), (3, [("id", "2"), ("v", "b")]),
           (4, [("id", "1"), ("v", "c")])]) =
        (lastOcc ["id"]
            [(2, [("id", "1"), ("v", "a")]), (3, [("id", "2"), ("v", "b")]),
             (4, [("id", "1"), ("v", "c")])] "1").map
          (fun r => (r.1, projRow ["id", "v"] r.2)))) :=
  ⟨by decide, C1_last_occurrence_wins ⟨["id"], 10, ["inventory"]⟩ ["id", "v"]
    ["id", "v"] ["1"]
    [(2, [("id", "1"), ("v", "a")]), (3, [("id", "2"), ("v", "b")]),
     (4, [("id", "1"), ("v", "c")])] "1" (by decide)⟩

/-- C2 counterexample: the digests hash the column values joined with an
unescaped `"|"`, so the pair of rows below — whose non-noise columns `a`
and `b` both change — produces equal significant digests
(`"1|2" ++ "|" ++ "3"` versus `"1" ++ "|" ++ "2|3"`) and is counted as a
noise-only update: `rows_updated = 0`, `rows_updated_excluded_only = 1`,
refuting the claim that a key with a differing non-noise common column
always adds 1 to `rows_updated`. -/
theorem C2_counterexample :
    ((computeDiff ⟨["id"], 10, ["inventory"]⟩
        ⟨["id", "a", "b", "inventory"],
          [(2, [("id", "1"), ("a", "1|2"), ("b", "3"), ("inventory", "X")])]⟩
        ⟨["id", "a", "b", "inventory"],
          [(2, [("id", "1"), ("a", "1"), ("b", "2|3"), ("inventory", "Y")])]⟩).toOption.map
      (fun r => (r.rows_updated, r.rows_updated_excluded_only))) = some (0, 1) ∧
    rget [("id", "1"), ("a", "1|2"), ("b", "3"), ("inventory", "X")] "a" ≠
      rget [("id", "1"), ("a", "1"), ("b", "2|3"), ("inventory", "Y")] "a" ∧
    isExcludedColumn ["inventory"] "a" = false ∧
    "a" ∈ commonKeysOf
      ⟨["id", "a", "b", "inventory"],
        [(2, [("id", "1"), ("a", "1|2"), ("b", "3"), ("inventory", "X")])]⟩
      ⟨["id", "a", "b", "inventory"],
        [(2, [("id", "1"), ("a", "1"), ("b", "2|3"), ("inventory", "Y")])]⟩ := by
  decide

/-- C2 amended: classification is by digest equality of the stored (last
occurrence) entries, not by per-column value comparison: a key present in
both indexes adds 1 to `rows_updated_excluded_only` exactly when the full
digests differ and the significant digests match, 1 to `rows_updated`
exactly when both digests differ, and no key is counted in both (because
the unescaped `"|"` join makes digest equality coarser than column-wise
equality, the digest conditions are not equivalent to "differs only in
noise columns" / "some non-noise column differs"). -/
theorem C2_amended (cfg : DifferConfig) (tA tB : Table)
    (hA : ∀ k ∈ cfg.primaryKeys, k ∈ tA.headers)
    (hB : ∀ k ∈ cfg.primaryKeys, k ∈ tB.headers) :
    ∃ r, computeDiff cfg tA tB = .ok r ∧
      r.rows_updated = ((keyFinset cfg.primaryKeys tB.rows).filter
        (fun k => meaningfulKeyPred cfg (commonKeysOf tA tB)
          (comparisonKeysOf cfg tA tB) tA.rows tB.rows k = true)).card ∧
      r.rows_updated_excluded_only = ((keyFinset cfg.primaryKeys tB.rows).filter
        (fun k => excludedOnlyKeyPred cfg (commonKeysOf tA tB)
          (comparisonKeysOf cfg tA tB) tA.rows tB.rows k = true)).card ∧
      (∀ k, ¬(meaningfulKeyPred cfg (commonKeysOf tA tB)
          (comparisonKeysOf cfg tA tB) tA.rows tB.rows k = true ∧
        excludedOnlyKeyPred cfg (commonKeysOf tA tB)
          (comparisonKeysOf cfg tA tB) tA.rows tB.rows k = true)) := by
  refine ⟨_, computeDiff_eq_ok cfg tA tB hA hB, ?_, ?_, ?_⟩
  · show (processDifferences cfg tA.rows tB.rows (commonKeysOf tA tB)
      (comparisonKeysOf cfg tA tB)).rows_updated = _
    rw [processDifferences_rows_updated]
  · show (processDifferences cfg tA.rows tB.rows (commonKeysOf tA tB)
      (comparisonKeysOf cfg tA tB)).rows_updated_excluded_only = _
    rw [processDifferences_rows_excluded_only]
  · rintro k ⟨h1, h2⟩
    unfold meaningfulKeyPred at h1
    unfold excludedOnlyKeyPred at h2
    cases hp : lastOcc cfg.primaryKeys tA.rows k with
    | none => rw [hp] at h1; simp at h1
    | some rp =>
        cases hd : lastOcc cfg.primaryKeys tB.rows k with
        | none => rw [hp, hd] at h1; simp at h1
        | some rd =>
            rw [hp, hd] at h1 h2
            simp only [Bool.and_eq_true, bne_iff_ne, ne_eq, beq_iff_eq] at h1 h2
            exact h1.2 h2.2

/-- C2 witness for the amended statement: one meaningfully changed key and
one noise-only changed key. -/
theorem C2_witness :
    (∀ k ∈ ["id"], k ∈ ["id", "v", "inventory"]) ∧
    (∃ r, computeDiff ⟨["id"], 10, ["inventory"]⟩
        ⟨["id", "v", "inventory"],
          [(2, [("id", "1"), ("v", "x"), ("inventory", "5")]),
           (3, [("id", "2"), ("v", "y"), ("inventory", "6")])]⟩
        ⟨["id", "v", "inventory"],
          [(2, [("id", "1"), ("v", "x2"), ("inventory", "5")]),
           (3, [("id", "2"), ("v", "y"), ("inventory", "7")])]⟩ = .ok r ∧
      r.rows_updated = ((keyFinset ["id"]
          [(2, [("id", "1"), ("v", "x2"), ("inventory", "5")]),
           (3, [("id", "2"), ("v", "y"), ("inventory", "7")])]).filter
        (fun k => meaningfulKeyPred ⟨["id"], 10, ["inventory"]⟩
          (commonKeysOf
            ⟨["id", "v", "inventory"],
              [(2, [("id", "1"), ("v", "x"), ("inventory", "5")]),
               (3, [("id", "2"), ("v", "y"), ("inventory", "6")])]⟩
            ⟨["id", "v", "inventory"],
              [(2, [("id", "1"), ("v", "x2"), ("inventory", "5")]),
               (3, [("id", "2"), ("v", "y"), ("inventory", "7")])]⟩)
          (comparisonKeysOf ⟨["id"], 10, ["inventory"]⟩
            ⟨["id", "v", "inventory"],
              [(2, [("id", "1"), ("v", "x"), ("inventory", "5")]),
               (3, [("id", "2"), ("v", "y"), ("inventory", "6")])]⟩
            ⟨["id", "v", "inventory"],
              [(2, [("id", "1"), ("v", "x2"), ("inventory", "5")]),
               (3, [("id", "2"), ("v", "y"), ("inventory", "7")])]⟩)
          [(2, [("id", "1"), ("v", "x"), ("inventory", "5")]),
           (3, [("id", "2"), ("v", "y"), ("inventory", "6")])]
          [(2, [("id", "1"), ("v", "x2"), ("inventory", "5")]),
           (3, [("id", "2"), ("v", "y"), ("inventory", "7")])] k = true)).card ∧
      r.rows_updated_excluded_only = ((keyFinset ["id"]
          [(2, [("id", "1"), ("v", "x2"), ("inventory", "5")]),
           (3, [("id", "2"), ("v", "y"), ("inventory", "7")])]).filter
        (fun k => excludedOnlyKeyPred ⟨["id"], 10, ["inventory"]⟩
          (commonKeysOf
            ⟨["id", "v", "inventory"],
              [(2, [("id", "1"), ("v", "x"), ("inventory", "5")]),
               (3, [("id", "2"), ("v", "y"), ("inventory", "6")])]⟩
            ⟨["id", "v", "inventory"],
              [(2, [("id", "1"), ("v", "x2"), ("inventory", "5")]),
               (3, [("id", "2"), ("v", "y"), ("inventory", "7")])]⟩)
          (comparisonKeysOf ⟨["id"], 10, ["inventory"]⟩
            ⟨["id", "v", "inventory"],
              [(2, [("id", "1"), ("v", "x"), ("inventory", "5")]),
               (3, [("id", "2"), ("v", "y"), ("inventory", "6")])]⟩
            ⟨["id", "v", "inventory"],
              [(2, [("id", "1"), ("v", "x2"), ("inventory", "5")]),
               (3, [("id", "2"), ("v", "y"), ("inventory", "7")])]⟩)
          [(2, [("id", "1"), ("v", "x"), ("inventory", "5")]),
           (3, [("id", "2"), ("v", "y"), ("inventory", "6")])]
          [(2, [("id", "1"), ("v", "x2"), ("inventory", "5")]),
           (3, [("id", "2"), ("v", "y"), ("inventory", "7")])] k = true)).card ∧
      (∀ k, ¬(meaningfulKeyPred ⟨["id"], 10, ["inventory"]⟩
          (commonKeysOf
            ⟨["id", "v", "inventory"],
              [(2, [("id", "1"), ("v", "x"), ("inventory", "5")]),
               (3, [("id", "2"), ("v", "y"), ("inventory", "6")])]⟩
            ⟨["id", "v", "inventory"],
              [(2, [("id", "1"), ("v", "x2"), ("inventory", "5")]),
               (3, [("id", "2"), ("v", "y"), ("inventory", "7")])]⟩)
          (comparisonKeysOf ⟨["id"], 10, ["inventory"]⟩
            ⟨["id", "v", "inventory"],
              [(2, [("id", "1"), ("v", "x"), ("inventory", "5")]),
               (3, [("id", "2"), ("v", "y"), ("inventory", "6")])]⟩
            ⟨["id", "v", "inventory"],
              [(2, [("id", "1"), ("v", "x2"), ("inventory", "5")]),
               (3, [("id", "2"), ("v", "y"), ("inventory", "7")])]⟩)
          [(2, [("id", "1"), ("v", "x"), ("inventory", "5")]),
           (3, [("id", "2"), ("v", "y"), ("inventory", "6")])]
          [(2, [("id", "1"), ("v", "x2"), ("inventory", "5")]),
           (3, [("id", "2"), ("v", "y"), ("inventory", "7")])] k = true ∧
        excludedOnlyKeyPred ⟨["id"], 10, ["inventory"]⟩
          (commonKeysOf
            ⟨["id", "v", "inventory"],
              [(2, [("id", "1"), ("v", "x"), ("inventory", "5")]),
               (3, [("id", "2"), ("v", "y"), ("inventory", "6")])]⟩
            ⟨["id", "v", "inventory"],
              [(2, [("id", "1"), ("v", "x2"), ("inventory", "5")]),
               (3, [("id", "2"), ("v", "y"), ("inventory", "7")])]⟩)
          (comparisonKeysOf ⟨["id"], 10, ["inventory"]⟩
            ⟨["id", "v", "inventory"],
              [(2, [("id", "1"), ("v", "x"), ("inventory", "5")]),
               (3, [("id", "2"), ("v", "y"), ("inventory", "6")])]⟩
            ⟨["id", "v", "inventory"],
              [(2, [("id", "1"), ("v", "x2"), ("inventory", "5")]),
               (3, [("id", "2"), ("v", "y"), ("inventory", "7")])]⟩)
          [(2, [("id", "1"), ("v", "x"), ("inventory", "5")]),
           (3, [("id", "2"), ("v", "y"), ("inventory", "6")])]
          [(2, [("id", "1"), ("v", "x2"), ("inventory", "5")]),
           (3, [("id", "2"), ("v", "y"), ("inventory", "7")])] k = true))) :=
  ⟨by decide, C2_amended ⟨["id"], 10, ["inventory"]⟩
    ⟨["id", "v", "inventory"],
      [(2, [("id", "1"), ("v", "x"), ("inventory", "5")]),
       (3, [("id", "2"), ("v", "y"), ("inventory", "6")])]⟩
    ⟨["id", "v", "inventory"],
      [(2, [("id", "1"), ("v", "x2"), ("inventory", "5")]),
       (3, [("id", "2"), ("v", "y"), ("inventory", "7")])]⟩ (by decide) (by decide)⟩

/-- C6 counterexample: with a noise predicate matching every common column
(`comparison_keys` empty), the significant digest falls back to the full
digest, so a key whose only change is in a noise column is classified
meaningful (`rows_updated = 1`) although Pass 3 finds zero differing
non-noise columns — and no error is raised: the diff returns normally with
an empty example map and empty per-column tally. -/
theorem C6_counterexample :
    ((computeDiff ⟨["id"], 10, ["id", "note"]⟩
        ⟨["id", "note"], [(2, [("id", "1"), ("note", "x")])]⟩
        ⟨["id", "note"], [(2, [("id", "1"), ("note", "y")])]⟩).toOption.map
      (fun r => (r.rows_updated, r.example_ids, r.detailed_key_update_counts))) =
      some (1, [], []) ∧
    meaningfulKeyPred ⟨["id"], 10, ["id", "note"]⟩
      (commonKeysOf ⟨["id", "note"], [(2, [("id", "1"), ("note", "x")])]⟩
        ⟨["id", "note"], [(2, [("id", "1"), ("note", "y")])]⟩)
      (comparisonKeysOf ⟨["id"], 10, ["id", "note"]⟩
        ⟨["id", "note"], [(2, [("id", "1"), ("note", "x")])]⟩
        ⟨["id", "note"], [(2, [("id", "1"), ("note", "y")])]⟩)
      [(2, [("id", "1"), ("note", "x")])]
      [(2, [("id", "1"), ("note", "y")])] "1" = true ∧
    comparisonKeysOf ⟨["id"], 10, ["id", "note"]⟩
      ⟨["id", "note"], [(2, [("id", "1"), ("note", "x")])]⟩
      ⟨["id", "note"], [(2, [("id", "1"), ("note", "y")])]⟩ = [] ∧
    columnDiffs ["id", "note"]
      (commonKeysOf ⟨["id", "note"], [(2, [("id", "1"), ("note", "x")])]⟩
        ⟨["id", "note"], [(2, [("id", "1"), ("note", "y")])]⟩)
      (projRow (commonKeysOf ⟨["id", "note"], [(2, [("id", "1"), ("note", "x")])]⟩
          ⟨["id", "note"], [(2, [("id", "1"), ("note", "y")])]⟩)
        [("id", "1"), ("note", "x")])
      (projRow (commonKeysOf ⟨["id", "note"], [(2, [("id", "1"), ("note", "x")])]⟩
          ⟨["id", "note"], [(2, [("id", "1"), ("note", "y")])]⟩)
        [("id", "1"), ("note", "y")]) = [] := by
  decide

/-- C6 amended: provided at least one common column is not matched by the
noise predicate (`comparison_keys` non-empty), every key classified
meaningful in Pass 2 has, in the Pass-3 comparison of the retained
last-occurrence rows, at least one differing common non-noise column.
(When every common column is noise, the fallback
`significant_digest = full_digest` breaks this invariant and the
implementation does not surface it as an error — see the counterexample.) -/
theorem C6_meaningful_has_nonnoise_diff (cfg : DifferConfig)
    (commonKeys comparisonKeys : List String)
    (prodRows devRows : List (Nat × Row))
    (hdef : comparisonKeys = commonKeys.filter
      (fun c => !(isExcludedColumn cfg.excludedPatterns c)))
    (hne : comparisonKeys ≠ []) :
    ∀ k ∈ (meaningfulEntries
        (prodIndexOf cfg commonKeys comparisonKeys prodRows)
        (devIndexOf cfg commonKeys comparisonKeys devRows)).map Prod.fst,
      ∃ prow dln drow,
        List.lookup k (buildNeeded cfg.primaryKeys
          ((changedEntries (prodIndexOf cfg commonKeys comparisonKeys prodRows)
            (devIndexOf cfg commonKeys comparisonKeys devRows)).map Prod.fst)
          (fun r => projRow commonKeys r.2) [] prodRows) = some prow ∧
        List.lookup k (buildNeeded cfg.primaryKeys
          ((changedEntries (prodIndexOf cfg commonKeys comparisonKeys prodRows)
            (devIndexOf cfg commonKeys comparisonKeys devRows)).map Prod.fst)
          (fun r => (r.1, projRow commonKeys r.2)) [] devRows) =
            some (dln, drow) ∧
        columnDiffs cfg.excludedPatterns commonKeys prow drow ≠ [] := by
  intro k hk
  obtain ⟨e, he, heq⟩ := List.mem_map.mp hk
  subst heq
  have hfil := List.mem_filter.mp he
  have hpred := hfil.2
  have hnd := nodup_keys_buildIndexGo cfg.primaryKeys
    (devEntry commonKeys comparisonKeys) devRows [] (by simp)
  have hlookup_dev := mem_lookup_of_nodup _ _ _ hfil.1 hnd
  simp only [devIndexOf] at hlookup_dev
  rw [lookup_buildIndexGo_nil] at hlookup_dev
  cases hdv : lastOcc cfg.primaryKeys devRows e.1 with
  | none => rw [hdv] at hlookup_dev; simp at hlookup_dev
  | some rd =>
  rw [hdv] at hlookup_dev
  simp only [Option.map_some'] at hlookup_dev
  have he2 : e.2 = devEntry commonKeys comparisonKeys rd :=
    (Option.some.injEq .. ▸ hlookup_dev).symm
  cases hlp : List.lookup e.1 (prodIndexOf cfg commonKeys comparisonKeys prodRows) with
  | none =>
      exfalso
      rw [hlp] at hpred
      simp at hpred
  | some pe =>
  have hlp2 := hlp
  simp only [prodIndexOf] at hlp2
  rw [lookup_buildIndexGo_nil] at hlp2
  cases hpv : lastOcc cfg.primaryKeys prodRows e.1 with
  | none => rw [hpv] at hlp2; simp at hlp2
  | some rp =>
  rw [hpv] at hlp2
  simp only [Option.map_some'] at hlp2
  have hpe : pe = prodEntry cfg commonKeys comparisonKeys rp :=
    (Option.some.injEq .. ▸ hlp2).symm
  rw [hlp] at hpred
  simp only [Bool.and_eq_true, bne_iff_ne, ne_eq] at hpred
  have hchanged : e.1 ∈ (changedEntries
      (prodIndexOf cfg commonKeys comparisonKeys prodRows)
      (devIndexOf cfg commonKeys comparisonKeys devRows)).map Prod.fst := by
    refine List.mem_map.mpr ⟨e, List.mem_filter.mpr ⟨hfil.1, ?_⟩, rfl⟩
    rw [hlp]
    simpa using hpred.1
  refine ⟨projRow commonKeys rp.2, rd.1, projRow commonKeys rd.2, ?_, ?_, ?_⟩
  · rw [lookup_buildNeeded, if_pos hchanged, hpv]
  · rw [lookup_buildNeeded, if_pos hchanged, hdv]
  · have hie : comparisonKeys.isEmpty = false := by
      cases comparisonKeys with
      | nil => exact absurd rfl hne
      | cons c cs => rfl
    have hcne : hashRow rd.2 comparisonKeys ≠ hashRow rp.2 comparisonKeys := by
      have h2 := hpred.2
      rw [he2, hpe] at h2
      simpa [devEntry, prodEntry, hie] using h2
    obtain ⟨c, hcmem, hcne2⟩ :=
      exists_col_diff_of_hash_ne comparisonKeys rd.2 rp.2 hcne
    rw [hdef] at hcmem
    have hcf := List.mem_filter.mp hcmem
    apply List.ne_nil_of_mem (a := c)
    refine List.mem_filter.mpr ⟨hcf.1, ?_⟩
    rw [rget_projRow _ _ _ hcf.1, rget_projRow _ _ _ hcf.1]
    simp only [Bool.and_eq_true, bne_iff_ne, ne_eq]
    exact ⟨by simpa using fun hc => hcne2 hc.symm, by simpa using hcf.2⟩

/-- C6 witness for the amended statement: a two-column table with one
non-noise common column and one meaningful change. -/
theorem C6_witness :
    (["id", "v"] = (["id", "v"] : List String).filter
      (fun c => !(isExcludedColumn ["inventory"] c)) ∧
     (["id", "v"] : List String) ≠ []) ∧
    (∀ k ∈ (meaningfulEntries
        (prodIndexOf ⟨["id"], 10, ["inventory"]⟩ ["id", "v"] ["id", "v"]
          [(2, [("id", "1"), ("v", "x")])])
        (devIndexOf ⟨["id"], 10, ["inventory"]⟩ ["id", "v"] ["id", "v"]
          [(2, [("id", "1"), ("v", "y")])])).map Prod.fst,
      ∃ prow dln drow,
        List.lookup k (buildNeeded ["id"]
          ((changedEntries
            (prodIndexOf ⟨["id"], 10, ["inventory"]⟩ ["id", "v"] ["id", "v"]
              [(2, [("id", "1"), ("v", "x")])])
            (devIndexOf ⟨["id"], 10, ["inventory"]⟩ ["id", "v"] ["id", "v"]
              [(2, [("id", "1"), ("v", "y")])])).map Prod.fst)
          (fun r => projRow ["id", "v"] r.2) []
          [(2, [("id", "1"), ("v", "x")])]) = some prow ∧
        List.lookup k (buildNeeded ["id"]
          ((changedEntries
            (prodIndexOf ⟨["id"], 10, ["inventory"]⟩ ["id", "v"] ["id", "v"]
              [(2, [("id", "1"), ("v", "x")])])
            (devIndexOf ⟨["id"], 10, ["inventory"]⟩ ["id", "v"] ["id", "v"]
              [(2, [("id", "1"), ("v", "y")])])).map Prod.fst)
          (fun r => (r.1, projRow ["id", "v"] r.2)) []
          [(2, [("id", "1"), ("v", "y")])]) = some (dln, drow) ∧
        columnDiffs ["inventory"] ["id", "v"] prow drow ≠ []) :=
  ⟨⟨by decide, by decide⟩,
    C6_meaningful_has_nonnoise_diff ⟨["id"], 10, ["inventory"]⟩ ["id", "v"]
      ["id", "v"] [(2, [("id", "1"), ("v", "x")])]
      [(2, [("id", "1"), ("v", "y")])] (by decide) (by decide)⟩

/-- C9 counterexample: key "9" is new to production and occurs in the dev
table on lines 2 and 3; the added-row example records line 2 — the first
occurrence — although the last occurrence starts on line 3, refuting the
claim that the added-example line number is the last occurrence's. -/
theorem C9_counterexample :
    ((computeDiff ⟨["id"], 10, ["inventory"]⟩
        ⟨["id", "v"], [(2, [("id", "1"), ("v", "x")])]⟩
        ⟨["id", "v"], [(2, [("id", "9"), ("v", "a")]),
                       (3, [("id", "9"), ("v", "b")])]⟩).toOption.map
      (fun r => r.example_ids_added)) = some [("9", 2)] ∧
    (lastOcc ["id"] [(2, [("id", "9"), ("v", "a")]),
                     (3, [("id", "9"), ("v", "b")])] "9").map Prod.fst =
      some 3 ∧
    (2 : Nat) ≠ 3 := by
  decide

/-- C9 amended: each added-row example entry is keyed by the display key of,
and carries the starting line number of, the FIRST occurrence in the scan
of B of a key absent from the production index (the example is collected at
the moment a new key is first seen; last-occurrence-wins governs the index
entries, not the added-example line numbers). -/
theorem C9_added_examples_use_first_occurrence (cfg : DifferConfig)
    (tA tB : Table)
    (hA : ∀ k ∈ cfg.primaryKeys, k ∈ tA.headers)
    (hB : ∀ k ∈ cfg.primaryKeys, k ∈ tB.headers) :
    ∃ r, computeDiff cfg tA tB = .ok r ∧
      ∀ dk ln, (dk, ln) ∈ r.example_ids_added →
        ∃ p : Nat × Row,
          tB.rows.find? (fun q => makeCompositeKey cfg.primaryKeys q.2 ==
            makeCompositeKey cfg.primaryKeys p.2) = some p ∧
          List.lookup (makeCompositeKey cfg.primaryKeys p.2)
            (prodIndexOf cfg (commonKeysOf tA tB) (comparisonKeysOf cfg tA tB)
              tA.rows) = none ∧
          dk = getPrimaryKeyDisplay cfg.primaryKeys p.2 ∧ ln = p.1 := by
  refine ⟨_, computeDiff_eq_ok cfg tA tB hA hB, ?_⟩
  intro dk ln hmem
  have hmem2 : (dk, ln) ∈ collectExamples cfg.maxExamples
      ((addedScan cfg.primaryKeys
        (prodIndexOf cfg (commonKeysOf tA tB) (comparisonKeysOf cfg tA tB)
          tA.rows) [] tB.rows).map fun r =>
        (getPrimaryKeyDisplay cfg.primaryKeys r.2, r.1)) := by
    simpa only [processDifferences] using hmem
  have h1 := mem_collectExamples _ _ _ hmem2
  have h2 := List.mem_of_mem_take h1
  obtain ⟨p, hp, heq⟩ := List.mem_map.mp h2
  obtain ⟨heq1, heq2⟩ := Prod.mk.injEq .. ▸ heq
  exact ⟨p, addedScan_first_occurrence _ _ _ _ _ hp,
    addedScan_lookup_none _ _ _ _ _ hp, heq1.symm, heq2.symm⟩

/-- C9 witness for the amended statement. -/
theorem C9_witness :
    (∀ k ∈ ["id"], k ∈ ["id", "v"]) ∧
    (∃ r, computeDiff ⟨["id"], 10, ["inventory"]⟩
        ⟨["id", "v"], [(2, [("id", "1"), ("v", "x")])]⟩
        ⟨["id", "v"], [(2, [("id", "9"), ("v", "a")]),
                       (3, [("id", "9"), ("v", "b")])]⟩ = .ok r ∧
      ∀ dk ln, (dk, ln) ∈ r.example_ids_added →
        ∃ p : Nat × Row,
          ([(2, [("id", "9"), ("v", "a")]),
            (3, [("id", "9"), ("v", "b")])] : List (Nat × Row)).find?
            (fun q => makeCompositeKey ["id"] q.2 ==
              makeCompositeKey ["id"] p.2) = some p ∧
          List.lookup (makeCompositeKey ["id"] p.2)
            (prodIndexOf ⟨["id"], 10, ["inventory"]⟩
              (commonKeysOf ⟨["id", "v"], [(2, [("id", "1"), ("v", "x")])]⟩
                ⟨["id", "v"], [(2, [("id", "9"), ("v", "a")]),
                               (3, [("id", "9"), ("v", "b")])]⟩)
              (comparisonKeysOf ⟨["id"], 10, ["inventory"]⟩
                ⟨["id", "v"], [(2, [("id", "1"), ("v", "x")])]⟩
                ⟨["id", "v"], [(2, [("id", "9"), ("v", "a")]),
                               (3, [("id", "9"), ("v", "b")])]⟩)
              [(2, [("id", "1"), ("v", "x")])]) = none ∧
          dk = getPrimaryKeyDisplay ["id"] p.2 ∧ ln = p.1) :=
  ⟨by decide, C9_added_examples_use_first_occurrence ⟨["id"], 10, ["inventory"]⟩
    ⟨["id", "v"], [(2, [("id", "1"), ("v", "x")])]⟩
    ⟨["id", "v"], [(2, [("id", "9"), ("v", "a")]),
                   (3, [("id", "9"), ("v", "b")])]⟩ (by decide) (by decide)⟩

/-- C10: the end-of-file sample is read only for files larger than 100000
bytes, because the `file_size > 50000` test is nested inside the
`file_size > 100000` branch: a 60000-byte file — larger than 50KB — gets
only the initial head chunk and no end sample, contradicting the claim
(and the spec's stated thresholds); above 100000 bytes both the middle and
the end chunks are read. -/
theorem C10_sampling_eval :
    sampleChunks 60000 = [SampleChunk.head] ∧
    SampleChunk.tail ∉ sampleChunks 60000 ∧
    60000 > 50000 ∧
    sampleChunks 150000 =
      [SampleChunk.head, SampleChunk.middle, SampleChunk.tail] := by
  decide
